import Mathlib

/-!
Verification of the LangHook/OpenSense event pipeline against its
natural-language specification.  The Python sources are shallowly embedded:
pure functions become Lean functions over an explicit model of Python/JSON
values, fallible code returns `Option`/`Except`, and external collaborators
(the LLM chat call, the database session, `json.loads`, `jsonata.transform`)
are passed in as explicit inputs so that every control-flow branch of the
embedded code is the code's own.
-/

set_option maxHeartbeats 1000000
set_option maxRecDepth 100000

namespace LangHook

/-- Python strings are modelled as their list of Unicode code points
(`List Char`).  Python `str` comparison and iteration are per code point,
which this representation matches exactly. -/
abbrev PyStr := List Char

mutual

/-- A Python value produced by `json.loads` (the only payload values the
pipeline sees): `dict`, `list`, `str`, `int`, `float`, `bool`, `None`.
A `dict` is carried as its `items()` association list (insertion order,
keys distinct when built by the JSON parser).  A float is carried as an
opaque `Int` tag: no claim inspects a float's numeric value, only its
runtime type, so the tag serves solely to let two payloads differ in a
float-typed value. -/
inductive PyJson where
  | obj (fields : PyFields)
  | list (items : PyItems)
  | str (s : PyStr)
  | int (n : Int)
  | float (v : Int)
  | bool (b : Bool)
  | none
  deriving DecidableEq

/-- The `items()` association list of a Python dict. -/
inductive PyFields where
  | nil
  | cons (key : PyStr) (value : PyJson) (rest : PyFields)
  deriving DecidableEq

/-- The elements of a Python list. -/
inductive PyItems where
  | nil
  | cons (head : PyJson) (tail : PyItems)
  deriving DecidableEq

end

mutual

/-- The type skeleton of `src/langhook/map/fingerprint.py`: for each key
either a nested skeleton (dict value), a one-element list (non-empty list
value), an empty list, or a normalised scalar type name. -/
inductive Skeleton where
  | typeName (s : PyStr)
  | emptyList
  | listOf (elem : Skeleton)
  | obj (fields : SkFields)
  deriving DecidableEq

/-- The key/skeleton pairs of an object skeleton, in payload order. -/
inductive SkFields where
  | nil
  | cons (key : PyStr) (value : Skeleton) (rest : SkFields)
  deriving DecidableEq

end

/-- `_normalize_type_name` from `src/langhook/map/fingerprint.py` lines
39-57, fused with Python's `type(value)`: the table sends `str`/`int`/
`float`/`bool`/`NoneType` to JSON-Schema-like names and falls back to the
Python type's `__name__` (`dict`, `list`) for anything else. -/
def normalize_type_name (value : PyJson) : PyStr :=
  match value with
  | .str _ => "string".data
  | .int _ => "number".data
  | .float _ => "number".data
  | .bool _ => "boolean".data
  | .none => "null".data
  | .obj _ => "dict".data
  | .list _ => "list".data

mutual

/-- `extract_type_skeleton` from `src/langhook/map/fingerprint.py` lines
8-36: a non-dict payload maps to the empty skeleton; otherwise each
key's value is replaced by a nested skeleton, a one-element list (first
element's skeleton or type name), an empty list, or a type name. -/
def extract_type_skeleton (payload : PyJson) : Skeleton :=
  match payload with
  | .obj fields => .obj (skeletonOfFields fields)
  | _ => .obj .nil

/-- The `for key, value in payload.items()` loop of `extract_type_skeleton`. -/
def skeletonOfFields (fields : PyFields) : SkFields :=
  match fields with
  | .nil => .nil
  | .cons k v rest => .cons k (skeletonOfValue v) (skeletonOfFields rest)

/-- The per-value branch of `extract_type_skeleton`'s loop body. -/
def skeletonOfValue (value : PyJson) : Skeleton :=
  match value with
  | .obj fields => .obj (skeletonOfFields fields)
  | .list .nil => .emptyList
  | .list (.cons (.obj f) _) => .listOf (.obj (skeletonOfFields f))
  | .list (.cons x _) => .listOf (.typeName (normalize_type_name x))
  | v => .typeName (normalize_type_name v)

end

/-- Lexicographic order on code-point lists: exactly Python's `str` `<=`
used by `sorted()`/`sort_keys=True`. -/
def keyLe : PyStr → PyStr → Bool
  | [], _ => true
  | _ :: _, [] => false
  | x :: xs, y :: ys =>
    if x.toNat < y.toNat then true
    else if x = y then keyLe xs ys
    else false

/-- Insert one key/skeleton pair into a key-sorted `SkFields` list. -/
def insertField (k : PyStr) (v : Skeleton) : SkFields → SkFields
  | .nil => .cons k v .nil
  | .cons k2 v2 rest =>
    if keyLe k k2 then .cons k v (.cons k2 v2 rest)
    else .cons k2 v2 (insertField k v rest)

mutual

/-- Recursively sort every object level of a skeleton by key.  Serialising
the result in list order is exactly `json.dumps(skeleton, sort_keys=True)`,
which sorts each dict's items at serialisation time. -/
def sortSkeleton : Skeleton → Skeleton
  | .typeName s => .typeName s
  | .emptyList => .emptyList
  | .listOf s => .listOf (sortSkeleton s)
  | .obj fs => .obj (sortFields fs)

/-- Insertion sort of an object skeleton's fields by key. -/
def sortFields : SkFields → SkFields
  | .nil => .nil
  | .cons k v rest => insertField k (sortSkeleton v) (sortFields rest)

end

/-- Lowercase hex digit for a nibble, as used by `json.dumps` escapes and
by `hashlib`'s `hexdigest`. -/
def hexDigitChar (n : Nat) : Char :=
  if n < 10 then Char.ofNat (48 + n) else Char.ofNat (87 + n % 16)

/-- Four lowercase hex digits, most significant first (`'\\u%04x' % n`). -/
def hex4 (n : Nat) : List Char :=
  [hexDigitChar (n / 4096 % 16), hexDigitChar (n / 256 % 16),
   hexDigitChar (n / 16 % 16), hexDigitChar (n % 16)]

/-- One character of `json.dumps`'s default (`ensure_ascii=True`) string
escaping: `\\` and `"` get two-character escapes, the five control
shorthands `\b \t \n \f \r` likewise, printable ASCII (0x20-0x7e) passes
through, everything else (other controls, 0x7f and all non-ASCII) becomes
`\uXXXX`, with a surrogate pair for code points above 0xFFFF. -/
def escapeChar (c : Char) : List Char :=
  if c = '\\' then ['\\', '\\']
  else if c = '"' then ['\\', '"']
  else if c = Char.ofNat 8 then ['\\', 'b']
  else if c = Char.ofNat 9 then ['\\', 't']
  else if c = Char.ofNat 10 then ['\\', 'n']
  else if c = Char.ofNat 12 then ['\\', 'f']
  else if c = Char.ofNat 13 then ['\\', 'r']
  else if 32 ≤ c.toNat ∧ c.toNat ≤ 126 then [c]
  else if c.toNat < 65536 then '\\' :: 'u' :: hex4 c.toNat
  else
    '\\' :: 'u' :: hex4 (55296 + (c.toNat - 65536) / 1024) ++
      ('\\' :: 'u' :: hex4 (56320 + (c.toNat - 65536) % 1024))

/-- The body of a JSON string literal: each character escaped. -/
def escapeBody : PyStr → List Char
  | [] => []
  | c :: rest => escapeChar c ++ escapeBody rest

/-- A JSON string literal: quote, escaped body, quote. -/
def encodeJsonString (s : PyStr) : List Char :=
  '"' :: escapeBody s ++ ['"']

mutual

/-- Serialise a (pre-sorted) skeleton exactly as
`json.dumps(·, separators=(',', ':'))` does: no whitespace, `,` and `:`
separators, `ensure_ascii` string escaping. -/
def serializeSkeleton : Skeleton → List Char
  | .typeName s => encodeJsonString s
  | .emptyList => ['[', ']']
  | .listOf s => '[' :: (serializeSkeleton s ++ [']'])
  | .obj .nil => ['{', '}']
  | .obj (.cons k v rest) =>
    '{' :: (encodeJsonString k ++ ':' :: serializeSkeleton v ++
      serializeMoreFields rest ++ ['}'])

/-- The second and later `"key":value` members of an object, each preceded
by a comma. -/
def serializeMoreFields : SkFields → List Char
  | .nil => []
  | .cons k v rest =>
    ',' :: (encodeJsonString k ++ ':' :: serializeSkeleton v ++
      serializeMoreFields rest)

end

/-- `create_canonical_string` from `src/langhook/map/fingerprint.py` lines
60-70: `json.dumps(skeleton, sort_keys=True, separators=(',', ':'))`.
Sorting each dict's items at serialisation time equals recursively sorting
the skeleton and then serialising in list order. -/
def create_canonical_string (skeleton : Skeleton) : List Char :=
  serializeSkeleton (sortSkeleton skeleton)

/-- UTF-8 encoding of one code point (`str.encode('utf-8')`).  The
canonical string is pure ASCII after `ensure_ascii` escaping, but the
encoder is the real one. -/
def utf8Char (c : Char) : List Nat :=
  let n := c.toNat
  if n < 128 then [n]
  else if n < 2048 then [192 + n / 64, 128 + n % 64]
  else if n < 65536 then [224 + n / 4096, 128 + n / 64 % 64, 128 + n % 64]
  else [240 + n / 262144, 128 + n / 4096 % 64, 128 + n / 64 % 64, 128 + n % 64]

/-- UTF-8 encoding of a string, as a byte (`Nat < 256`) list. -/
def utf8Encode : List Char → List Nat
  | [] => []
  | c :: rest => utf8Char c ++ utf8Encode rest

/-!  SHA-256 (FIPS 180-4), written over `Nat` with explicit reduction
modulo `2^32`, so that `generate_fingerprint` is the real hash the Python
`hashlib.sha256(...).hexdigest()` computes. -/

/-- Reduce to a 32-bit word. -/
def w32 (n : Nat) : Nat := n % 4294967296

/-- Right-rotate a 32-bit word by `n` bits. -/
def rotr32 (n x : Nat) : Nat := x / 2 ^ n + x % 2 ^ n * 2 ^ (32 - n)

/-- Bitwise complement within 32 bits. -/
def not32 (x : Nat) : Nat := 4294967295 ^^^ x

/-- SHA-256 `Ch`. -/
def shaCh (x y z : Nat) : Nat := (x &&& y) ^^^ (not32 x &&& z)

/-- SHA-256 `Maj`. -/
def shaMaj (x y z : Nat) : Nat := (x &&& y) ^^^ (x &&& z) ^^^ (y &&& z)

/-- SHA-256 `Σ₀`. -/
def bigSigma0 (x : Nat) : Nat := rotr32 2 x ^^^ rotr32 13 x ^^^ rotr32 22 x

/-- SHA-256 `Σ₁`. -/
def bigSigma1 (x : Nat) : Nat := rotr32 6 x ^^^ rotr32 11 x ^^^ rotr32 25 x

/-- SHA-256 `σ₀`. -/
def smallSigma0 (x : Nat) : Nat := rotr32 7 x ^^^ rotr32 18 x ^^^ x / 8

/-- SHA-256 `σ₁`. -/
def smallSigma1 (x : Nat) : Nat := rotr32 17 x ^^^ rotr32 19 x ^^^ x / 1024

/-- The 64 SHA-256 round constants. -/
def shaK : List Nat :=
  [1116352408, 1899447441, 3049323471, 3921009573,
   961987163, 1508970993, 2453635748, 2870763221,
   3624381080, 310598401, 607225278, 1426881987,
   1925078388, 2162078206, 2614888103, 3248222580,
   3835390401, 4022224774, 264347078, 604807628,
   770255983, 1249150122, 1555081692, 1996064986,
   2554220882, 2821834349, 2952996808, 3210313671,
   3336571891, 3584528711, 113926993, 338241895,
   666307205, 773529912, 1294757372, 1396182291,
   1695183700, 1986661051, 2177026350, 2456956037,
   2730485921, 2820302411, 3259730800, 3345764771,
   3516065817, 3600352804, 4094571909, 275423344,
   430227734, 506948616, 659060556, 883997877,
   958139571, 1322822218, 1537002063, 1747873779,
   1955562222, 2024104815, 2227730452, 2361852424,
   2428436474, 2756734187, 3204031479, 3329325298]

/-- The eight SHA-256 initial hash words. -/
def shaInit : List Nat :=
  [1779033703, 3144134277, 1013904242, 2773480762,
   1359893119, 2600822924, 528734635, 1541459225]

/-- Big-endian eight-byte encoding of the bit length. -/
def be64 (n : Nat) : List Nat :=
  [n / 2 ^ 56 % 256, n / 2 ^ 48 % 256, n / 2 ^ 40 % 256, n / 2 ^ 32 % 256,
   n / 2 ^ 24 % 256, n / 2 ^ 16 % 256, n / 2 ^ 8 % 256, n % 256]

/-- SHA-256 padding: `0x80`, zeros to 56 mod 64, then the 64-bit
big-endian message bit length. -/
def shaPad (msg : List Nat) : List Nat :=
  msg ++ 128 :: List.replicate ((119 - msg.length % 64) % 64) 0 ++
    be64 (8 * msg.length)

/-- Pack bytes into big-endian 32-bit words. -/
def bytesToWords : List Nat → List Nat
  | a :: b :: c :: d :: rest =>
    (a * 16777216 + b * 65536 + c * 256 + d) :: bytesToWords rest
  | _ => []

/-- Extend a 16-word block by `n` further schedule words. -/
def extendSchedule : Nat → List Nat → List Nat
  | 0, ws => ws
  | n + 1, ws =>
    extendSchedule n (ws ++ [w32 (smallSigma1 (ws.getD (ws.length - 2) 0) +
      ws.getD (ws.length - 7) 0 + smallSigma0 (ws.getD (ws.length - 15) 0) +
      ws.getD (ws.length - 16) 0)])

/-- The eight-word working state of the compression function. -/
structure ShaState where
  a : Nat
  b : Nat
  c : Nat
  d : Nat
  e : Nat
  f : Nat
  g : Nat
  h : Nat

/-- One compression round: `kw` is the round constant paired with the
schedule word. -/
def shaRound (s : ShaState) (kw : Nat × Nat) : ShaState :=
  let t1 := w32 (s.h + bigSigma1 s.e + shaCh s.e s.f s.g + kw.1 + kw.2)
  let t2 := w32 (bigSigma0 s.a + shaMaj s.a s.b s.c)
  ⟨w32 (t1 + t2), s.a, s.b, s.c, w32 (s.d + t1), s.e, s.f, s.g⟩

/-- Process one 64-byte chunk (given as 16 words): run the 64 rounds and
add the result into the running hash words. -/
def processChunk (hs : List Nat) (chunkWords : List Nat) : List Nat :=
  let ws := extendSchedule 48 chunkWords
  let s0 : ShaState :=
    ⟨hs.getD 0 0, hs.getD 1 0, hs.getD 2 0, hs.getD 3 0,
     hs.getD 4 0, hs.getD 5 0, hs.getD 6 0, hs.getD 7 0⟩
  let s := (shaK.zip ws).foldl shaRound s0
  [w32 (hs.getD 0 0 + s.a), w32 (hs.getD 1 0 + s.b),
   w32 (hs.getD 2 0 + s.c), w32 (hs.getD 3 0 + s.d),
   w32 (hs.getD 4 0 + s.e), w32 (hs.getD 5 0 + s.f),
   w32 (hs.getD 6 0 + s.g), w32 (hs.getD 7 0 + s.h)]

/-- Split a byte list into 64-byte chunks (fuel-driven so that it reduces
definitionally; the fuel is the list length, always sufficient). -/
def chunks64Aux : Nat → List Nat → List (List Nat)
  | 0, _ => []
  | _ + 1, [] => []
  | fuel + 1, b :: rest =>
    (b :: rest).take 64 :: chunks64Aux fuel ((b :: rest).drop 64)

/-- Split a byte list into 64-byte chunks. -/
def chunks64 (bs : List Nat) : List (List Nat) := chunks64Aux bs.length bs

/-- Combine hash words big-endian into one natural number. -/
def combineWords (ws : List Nat) : Nat :=
  ws.foldl (fun acc x => acc * 4294967296 + w32 x) 0

/-- SHA-256 of a byte list, as the 256-bit digest value. -/
def sha256Nat (msg : List Nat) : Nat :=
  combineWords ((chunks64 (shaPad msg)).map bytesToWords |>.foldl processChunk shaInit)

/-- Lowercase hex rendering of the digest, 64 nibbles big-endian: exactly
`hashlib.sha256(...).hexdigest()`. -/
def hexDigest (n : Nat) : List Char :=
  (List.range 64).map (fun i => hexDigitChar (n / 16 ^ (63 - i) % 16))

/-- `generate_fingerprint` from `src/langhook/map/fingerprint.py` lines
73-87: SHA-256 hex digest of the UTF-8 canonical string of the payload's
type skeleton. -/
def generate_fingerprint (payload : PyJson) : List Char :=
  hexDigest (sha256Nat (utf8Encode (create_canonical_string
    (extract_type_skeleton payload))))

/-!  A decoder for the canonical serialisation, used only to prove that
distinct sorted skeletons have distinct canonical strings (the
serialisation is uniquely decodable). -/

/-- Value of a lowercase hex digit. -/
def hexVal (c : Char) : Option Nat :=
  if 48 ≤ c.toNat ∧ c.toNat ≤ 57 then some (c.toNat - 48)
  else if 97 ≤ c.toNat ∧ c.toNat ≤ 102 then some (c.toNat - 87)
  else Option.none

/-- Read four hex digits off the front. -/
def decode4 : List Char → Option (Nat × List Char)
  | a :: b :: c :: d :: rest =>
    match hexVal a, hexVal b, hexVal c, hexVal d with
    | some x, some y, some z, some w =>
      some (x * 4096 + y * 256 + z * 16 + w, rest)
    | _, _, _, _ => Option.none
  | _ => Option.none

/-- Decode the body of a JSON string literal up to and beyond its closing
quote, undoing `escapeChar` (including surrogate-pair recombination). -/
def decodeStringBody : Nat → List Char → Option (List Char × List Char)
  | 0, _ => Option.none
  | _ + 1, [] => Option.none
  | fuel + 1, c :: rest =>
    if c = '"' then some ([], rest)
    else if c = '\\' then
      match rest with
      | [] => Option.none
      | e :: rest2 =>
        if e = '\\' then
          (decodeStringBody fuel rest2).map (fun p => ('\\' :: p.1, p.2))
        else if e = '"' then
          (decodeStringBody fuel rest2).map (fun p => ('"' :: p.1, p.2))
        else if e = 'b' then
          (decodeStringBody fuel rest2).map (fun p => (Char.ofNat 8 :: p.1, p.2))
        else if e = 't' then
          (decodeStringBody fuel rest2).map (fun p => (Char.ofNat 9 :: p.1, p.2))
        else if e = 'n' then
          (decodeStringBody fuel rest2).map (fun p => (Char.ofNat 10 :: p.1, p.2))
        else if e = 'f' then
          (decodeStringBody fuel rest2).map (fun p => (Char.ofNat 12 :: p.1, p.2))
        else if e = 'r' then
          (decodeStringBody fuel rest2).map (fun p => (Char.ofNat 13 :: p.1, p.2))
        else if e = 'u' then
          match decode4 rest2 with
          | Option.none => Option.none
          | some (v, rest3) =>
            if 55296 ≤ v ∧ v < 56320 then
              match rest3 with
              | b1 :: b2 :: rest4 =>
                if b1 = '\\' ∧ b2 = 'u' then
                  match decode4 rest4 with
                  | Option.none => Option.none
                  | some (w, rest5) =>
                    if 56320 ≤ w ∧ w < 57344 then
                      (decodeStringBody fuel rest5).map
                        (fun p =>
                          (Char.ofNat (65536 + (v - 55296) * 1024 + (w - 56320)) :: p.1,
                           p.2))
                    else Option.none
                else Option.none
              | _ => Option.none
            else
              (decodeStringBody fuel rest3).map
                (fun p => (Char.ofNat v :: p.1, p.2))
        else Option.none
    else (decodeStringBody fuel rest).map (fun p => (c :: p.1, p.2))

/-- Decode a string-literal body, fuel supplied from the input length. -/
def decodeString (cs : List Char) : Option (List Char × List Char) :=
  decodeStringBody (cs.length + 1) cs

theorem hexVal_hexDigitChar (m : Nat) (h : m < 16) :
    hexVal (hexDigitChar m) = some m := by
  interval_cases m <;> rfl

theorem decode4_hex4 (v : Nat) (h : v < 65536) (rest : List Char) :
    decode4 (hex4 v ++ rest) = some (v, rest) := by
  have h1 : v / 4096 % 16 < 16 := Nat.mod_lt _ (by norm_num)
  have h2 : v / 256 % 16 < 16 := Nat.mod_lt _ (by norm_num)
  have h3 : v / 16 % 16 < 16 := Nat.mod_lt _ (by norm_num)
  have h4 : v % 16 < 16 := Nat.mod_lt _ (by norm_num)
  simp only [hex4, List.cons_append, List.nil_append, decode4,
    hexVal_hexDigitChar _ h1, hexVal_hexDigitChar _ h2,
    hexVal_hexDigitChar _ h3, hexVal_hexDigitChar _ h4]
  congr 1
  congr 1
  omega

theorem char_not_surrogate (c : Char) : c.toNat < 55296 ∨ 57344 ≤ c.toNat := by
  rcases c.valid with h | ⟨h1, _⟩
  · exact Or.inl h
  · exact Or.inr h1

theorem char_toNat_lt (c : Char) : c.toNat < 1114112 := by
  have he : c.toNat = c.val.toNat := rfl
  rcases c.valid with h | ⟨_, h2⟩
  · omega
  · exact h2

theorem toNat_ofNat_valid (n : Nat) (h : n.isValidChar) :
    (Char.ofNat n).toNat = n := by
  simp [Char.ofNat, Char.ofNatAux, h, Char.toNat, UInt32.toNat]

theorem dsb_quote (fuel : Nat) (rest : List Char) :
    decodeStringBody (fuel + 1) ('"' :: rest) = some ([], rest) := by
  simp +decide [decodeStringBody]

theorem dsb_plain (fuel : Nat) (c : Char) (rest : List Char)
    (hq : ¬ c = '"') (hb : ¬ c = '\\') :
    decodeStringBody (fuel + 1) (c :: rest) =
      (decodeStringBody fuel rest).map (fun p => (c :: p.1, p.2)) := by
  simp only [decodeStringBody, if_neg hq, if_neg hb]

theorem dsb_esc_bs (fuel : Nat) (rest : List Char) :
    decodeStringBody (fuel + 1) ('\\' :: '\\' :: rest) =
      (decodeStringBody fuel rest).map (fun p => ('\\' :: p.1, p.2)) := by
  simp +decide [decodeStringBody]

theorem dsb_esc_quote (fuel : Nat) (rest : List Char) :
    decodeStringBody (fuel + 1) ('\\' :: '"' :: rest) =
      (decodeStringBody fuel rest).map (fun p => ('"' :: p.1, p.2)) := by
  simp +decide [decodeStringBody]

theorem dsb_esc_b (fuel : Nat) (rest : List Char) :
    decodeStringBody (fuel + 1) ('\\' :: 'b' :: rest) =
      (decodeStringBody fuel rest).map (fun p => (Char.ofNat 8 :: p.1, p.2)) := by
  simp +decide [decodeStringBody]

theorem dsb_esc_t (fuel : Nat) (rest : List Char) :
    decodeStringBody (fuel + 1) ('\\' :: 't' :: rest) =
      (decodeStringBody fuel rest).map (fun p => (Char.ofNat 9 :: p.1, p.2)) := by
  simp +decide [decodeStringBody]

theorem dsb_esc_n (fuel : Nat) (rest : List Char) :
    decodeStringBody (fuel + 1) ('\\' :: 'n' :: rest) =
      (decodeStringBody fuel rest).map (fun p => (Char.ofNat 10 :: p.1, p.2)) := by
  simp +decide [decodeStringBody]

theorem dsb_esc_f (fuel : Nat) (rest : List Char) :
    decodeStringBody (fuel + 1) ('\\' :: 'f' :: rest) =
      (decodeStringBody fuel rest).map (fun p => (Char.ofNat 12 :: p.1, p.2)) := by
  simp +decide [decodeStringBody]

theorem dsb_esc_r (fuel : Nat) (rest : List Char) :
    decodeStringBody (fuel + 1) ('\\' :: 'r' :: rest) =
      (decodeStringBody fuel rest).map (fun p => (Char.ofNat 13 :: p.1, p.2)) := by
  simp +decide [decodeStringBody]

theorem dsb_u (fuel : Nat) (v : Nat) (hv : v < 65536)
    (hns : ¬ (55296 ≤ v ∧ v < 56320)) (rest : List Char) :
    decodeStringBody (fuel + 1) ('\\' :: 'u' :: (hex4 v ++ rest)) =
      (decodeStringBody fuel rest).map (fun p => (Char.ofNat v :: p.1, p.2)) := by
  simp +decide only [decodeStringBody]
  rw [decode4_hex4 v hv rest]
  simp [if_neg hns]

theorem dsb_u2 (fuel : Nat) (v w : Nat) (hv : v < 65536)
    (hvs : 55296 ≤ v ∧ v < 56320) (hw : w < 65536)
    (hws : 56320 ≤ w ∧ w < 57344) (rest : List Char) :
    decodeStringBody (fuel + 1)
        ('\\' :: 'u' :: (hex4 v ++ ('\\' :: 'u' :: (hex4 w ++ rest)))) =
      (decodeStringBody fuel rest).map
        (fun p => (Char.ofNat (65536 + (v - 55296) * 1024 + (w - 56320)) :: p.1, p.2)) := by
  simp +decide only [decodeStringBody]
  rw [decode4_hex4 v hv]
  simp only [if_pos hvs]
  simp +decide only
  rw [decode4_hex4 w hw]
  simp [if_pos hws]

theorem decodeStringBody_step (c : Char) (fuel : Nat) (tail : List Char) :
    decodeStringBody (fuel + 1) (escapeChar c ++ tail) =
      (decodeStringBody fuel tail).map (fun p => (c :: p.1, p.2)) := by
  by_cases h1 : c = '\\'
  · subst h1
    rw [show escapeChar '\\' = ['\\', '\\'] from by decide]
    simp only [List.cons_append, List.nil_append, dsb_esc_bs]
  by_cases h2 : c = '"'
  · subst h2
    rw [show escapeChar '"' = ['\\', '"'] from by decide]
    simp only [List.cons_append, List.nil_append, dsb_esc_quote]
  by_cases h3 : c = Char.ofNat 8
  · subst h3
    rw [show escapeChar (Char.ofNat 8) = ['\\', 'b'] from by decide]
    simp only [List.cons_append, List.nil_append, dsb_esc_b]
  by_cases h4 : c = Char.ofNat 9
  · subst h4
    rw [show escapeChar (Char.ofNat 9) = ['\\', 't'] from by decide]
    simp only [List.cons_append, List.nil_append, dsb_esc_t]
  by_cases h5 : c = Char.ofNat 10
  · subst h5
    rw [show escapeChar (Char.ofNat 10) = ['\\', 'n'] from by decide]
    simp only [List.cons_append, List.nil_append, dsb_esc_n]
  by_cases h6 : c = Char.ofNat 12
  · subst h6
    rw [show escapeChar (Char.ofNat 12) = ['\\', 'f'] from by decide]
    simp only [List.cons_append, List.nil_append, dsb_esc_f]
  by_cases h7 : c = Char.ofNat 13
  · subst h7
    rw [show escapeChar (Char.ofNat 13) = ['\\', 'r'] from by decide]
    simp only [List.cons_append, List.nil_append, dsb_esc_r]
  by_cases h8 : 32 ≤ c.toNat ∧ c.toNat ≤ 126
  · simp only [escapeChar, if_neg h1, if_neg h2, if_neg h3, if_neg h4,
      if_neg h5, if_neg h6, if_neg h7, if_pos h8, List.cons_append,
      List.nil_append, dsb_plain fuel c tail h2 h1]
  by_cases h9 : c.toNat < 65536
  · have hval : Nat.isValidChar c.toNat := by
      rcases char_not_surrogate c with h | h
      · exact Or.inl h
      · exact Or.inr ⟨h, char_toNat_lt c⟩
    have hnosur : ¬(55296 ≤ c.toNat ∧ c.toNat < 56320) := by
      rcases char_not_surrogate c with h | h <;> omega
    simp only [escapeChar, if_neg h1, if_neg h2, if_neg h3, if_neg h4,
      if_neg h5, if_neg h6, if_neg h7, if_neg h8, if_pos h9,
      List.cons_append, List.append_assoc, dsb_u fuel c.toNat h9 hnosur tail,
      Char.ofNat_toNat]
  · have hn : c.toNat < 1114112 := char_toNat_lt c
    have hhi : 55296 + (c.toNat - 65536) / 1024 < 65536 := by omega
    have hhisur : 55296 ≤ 55296 + (c.toNat - 65536) / 1024 ∧
        55296 + (c.toNat - 65536) / 1024 < 56320 := by omega
    have hlo : 56320 + (c.toNat - 65536) % 1024 < 65536 := by omega
    have hlosur : 56320 ≤ 56320 + (c.toNat - 65536) % 1024 ∧
        56320 + (c.toNat - 65536) % 1024 < 57344 := by omega
    have hrec : 65536 + (55296 + (c.toNat - 65536) / 1024 - 55296) * 1024 +
        (56320 + (c.toNat - 65536) % 1024 - 56320) = c.toNat := by omega
    simp only [escapeChar, if_neg h1, if_neg h2, if_neg h3, if_neg h4,
      if_neg h5, if_neg h6, if_neg h7, if_neg h8, if_neg h9,
      List.cons_append, List.append_assoc, List.nil_append,
      dsb_u2 fuel _ _ hhi hhisur hlo hlosur tail, hrec, Char.ofNat_toNat]

theorem decodeStringBody_escape (s : PyStr) : ∀ (fuel : Nat) (rest : List Char),
    s.length < fuel →
    decodeStringBody fuel (escapeBody s ++ '"' :: rest) = some (s, rest) := by
  induction s with
  | nil =>
    intro fuel rest h
    match fuel, h with
    | f + 1, _ => simp [escapeBody, decodeStringBody]
  | cons c s ih =>
    intro fuel rest h
    match fuel, h with
    | f + 1, h =>
      have hlen : s.length < f := by
        simpa using Nat.lt_of_succ_lt_succ h
      simp only [escapeBody, List.append_assoc, decodeStringBody_step,
        ih f rest hlen]
      rfl

/-- The string-literal encoding is self-delimiting: from any continuation,
the decoder returns exactly the encoded string and the continuation. -/
theorem decodeString_encode (s : PyStr) (rest : List Char) :
    decodeString (escapeBody s ++ '"' :: rest) = some (s, rest) := by
  have hlen : s.length ≤ (escapeBody s).length := by
    induction s with
    | nil => simp [escapeBody]
    | cons c t ih =>
      have : 1 ≤ (escapeChar c).length := by
        by_cases h1 : c = '\\'
        · subst h1; decide
        all_goals
          simp only [escapeChar]
          repeat' split
          all_goals simp
      simp only [escapeBody, List.length_append, List.length_cons]
      omega
  apply decodeStringBody_escape
  simp only [List.length_append, List.length_cons]
  omega

mutual

/-- Decode one canonical skeleton value off the front of a character list. -/
def decodeSkeleton : Nat → List Char → Option (Skeleton × List Char)
  | 0, _ => Option.none
  | _ + 1, [] => Option.none
  | fuel + 1, c :: cs =>
    if c = '"' then
      match decodeString cs with
      | some (s, rest) => some (.typeName s, rest)
      | Option.none => Option.none
    else if c = '[' then
      match cs with
      | [] => Option.none
      | c2 :: cs2 =>
        if c2 = ']' then some (.emptyList, cs2)
        else
          match decodeSkeleton fuel (c2 :: cs2) with
          | some (s, ']' :: rest) => some (.listOf s, rest)
          | _ => Option.none
    else if c = '{' then
      match cs with
      | [] => Option.none
      | c2 :: cs2 =>
        if c2 = '}' then some (.obj .nil, cs2)
        else if c2 = '"' then
          match decodeString cs2 with
          | some (k, ':' :: rest2) =>
            match decodeSkeleton fuel rest2 with
            | some (v, rest3) =>
              match decodeMoreFields fuel rest3 with
              | some (fs, rest4) => some (.obj (.cons k v fs), rest4)
              | Option.none => Option.none
            | Option.none => Option.none
          | _ => Option.none
        else Option.none
    else Option.none

/-- Decode the `,"key":value` continuation of an object, through the
closing brace. -/
def decodeMoreFields : Nat → List Char → Option (SkFields × List Char)
  | 0, _ => Option.none
  | _ + 1, [] => Option.none
  | fuel + 1, c :: cs =>
    if c = '}' then some (.nil, cs)
    else if c = ',' then
      match cs with
      | [] => Option.none
      | c2 :: cs2 =>
        if c2 = '"' then
          match decodeString cs2 with
          | some (k, ':' :: rest2) =>
            match decodeSkeleton fuel rest2 with
            | some (v, rest3) =>
              match decodeMoreFields fuel rest3 with
              | some (fs, rest4) => some (.cons k v fs, rest4)
              | Option.none => Option.none
            | Option.none => Option.none
          | _ => Option.none
        else Option.none
    else Option.none

end

mutual

/-- Fuel sufficient to decode a skeleton. -/
def skFuel : Skeleton → Nat
  | .typeName _ => 1
  | .emptyList => 1
  | .listOf s => skFuel s + 1
  | .obj .nil => 1
  | .obj (.cons _ v fs) => skFuel v + fsFuel fs + 1

/-- Fuel sufficient to decode an object continuation. -/
def fsFuel : SkFields → Nat
  | .nil => 1
  | .cons _ v fs => skFuel v + fsFuel fs + 1

end

theorem skFuel_pos (sk : Skeleton) : 1 ≤ skFuel sk := by
  cases sk with
  | typeName s => simp [skFuel]
  | emptyList => simp [skFuel]
  | listOf s => simp [skFuel]
  | obj fs => cases fs <;> simp [skFuel]

theorem fsFuel_pos (fs : SkFields) : 1 ≤ fsFuel fs := by
  cases fs <;> simp [fsFuel]

theorem serializeSkeleton_head (sk : Skeleton) :
    ∃ c t, serializeSkeleton sk = c :: t ∧ (c = '"' ∨ c = '[' ∨ c = '{') := by
  cases sk with
  | typeName s =>
    exact ⟨'"', escapeBody s ++ ['"'], rfl, Or.inl rfl⟩
  | emptyList =>
    exact ⟨'[', [']'], rfl, Or.inr (Or.inl rfl)⟩
  | listOf s =>
    exact ⟨'[', serializeSkeleton s ++ [']'], rfl, Or.inr (Or.inl rfl)⟩
  | obj fs =>
    cases fs with
    | nil => exact ⟨'{', ['}'], rfl, Or.inr (Or.inr rfl)⟩
    | cons k v rest =>
      exact ⟨'{', encodeJsonString k ++ ':' :: serializeSkeleton v ++
        serializeMoreFields rest ++ ['}'], rfl, Or.inr (Or.inr rfl)⟩

mutual

/-- The canonical serialisation is uniquely decodable: from any
continuation, the decoder recovers exactly the serialised skeleton. -/
theorem decodeSkeleton_serialize (sk : Skeleton) (rest : List Char) (fuel : Nat)
    (h : skFuel sk ≤ fuel) :
    decodeSkeleton fuel (serializeSkeleton sk ++ rest) = some (sk, rest) := by
  have hf1 : 1 ≤ fuel := le_trans (skFuel_pos sk) h
  obtain ⟨f, rfl⟩ : ∃ f, fuel = f + 1 := ⟨fuel - 1, by omega⟩
  cases sk with
  | typeName s =>
    have hin : serializeSkeleton (.typeName s) ++ rest =
        '"' :: (escapeBody s ++ '"' :: rest) := by
      simp [serializeSkeleton, encodeJsonString]
    rw [hin]
    simp +decide only [decodeSkeleton]
    rw [decodeString_encode s rest]
    simp
  | emptyList =>
    have hin : serializeSkeleton .emptyList ++ rest = '[' :: ']' :: rest := by
      simp [serializeSkeleton]
    rw [hin]
    simp +decide [decodeSkeleton]
  | listOf s =>
    have hf : skFuel s ≤ f := by
      have := h
      simp only [skFuel] at this
      omega
    obtain ⟨c2, t, hser, hc2⟩ := serializeSkeleton_head s
    have hin : serializeSkeleton (.listOf s) ++ rest =
        '[' :: (c2 :: (t ++ ']' :: rest)) := by
      simp [serializeSkeleton, hser]
    rw [hin]
    simp +decide only [decodeSkeleton]
    have hne : ¬ (c2 = ']') := by
      rcases hc2 with h | h | h <;> subst h <;> decide
    rw [if_neg hne]
    have hdec : decodeSkeleton f (c2 :: (t ++ ']' :: rest)) =
        some (s, ']' :: rest) := by
      have := decodeSkeleton_serialize s (']' :: rest) f hf
      rw [hser] at this
      simpa using this
    rw [hdec]
    simp
  | obj fs =>
    cases fs with
    | nil =>
      have hin : serializeSkeleton (.obj .nil) ++ rest = '{' :: '}' :: rest := by
        simp [serializeSkeleton]
      rw [hin]
      simp +decide [decodeSkeleton]
    | cons k v fs2 =>
      have hfv : skFuel v ≤ f := by
        have := h
        simp only [skFuel] at this
        omega
      have hffs : fsFuel fs2 ≤ f := by
        have := h
        simp only [skFuel] at this
        omega
      have hin : serializeSkeleton (.obj (.cons k v fs2)) ++ rest =
          '{' :: ('"' :: (escapeBody k ++ '"' ::
            (':' :: (serializeSkeleton v ++
              (serializeMoreFields fs2 ++ '}' :: rest))))) := by
        simp [serializeSkeleton, encodeJsonString]
      rw [hin]
      simp +decide only [decodeSkeleton,
        decodeString_encode k
          (':' :: (serializeSkeleton v ++ (serializeMoreFields fs2 ++ '}' :: rest))),
        decodeSkeleton_serialize v (serializeMoreFields fs2 ++ '}' :: rest) f hfv,
        decodeMoreFields_serialize fs2 rest f hffs, if_true, if_false]

/-- Companion to `decodeSkeleton_serialize` for object continuations. -/
theorem decodeMoreFields_serialize (fs : SkFields) (rest : List Char) (fuel : Nat)
    (h : fsFuel fs ≤ fuel) :
    decodeMoreFields fuel (serializeMoreFields fs ++ '}' :: rest) =
      some (fs, rest) := by
  have hf1 : 1 ≤ fuel := le_trans (fsFuel_pos fs) h
  obtain ⟨f, rfl⟩ : ∃ f, fuel = f + 1 := ⟨fuel - 1, by omega⟩
  cases fs with
  | nil =>
    have hin : serializeMoreFields .nil ++ '}' :: rest = '}' :: rest := by
      simp [serializeMoreFields]
    rw [hin]
    simp +decide [decodeMoreFields]
  | cons k v fs2 =>
    have hfv : skFuel v ≤ f := by
      have := h
      simp only [fsFuel] at this
      omega
    have hffs : fsFuel fs2 ≤ f := by
      have := h
      simp only [fsFuel] at this
      omega
    have hin : serializeMoreFields (.cons k v fs2) ++ '}' :: rest =
        ',' :: ('"' :: (escapeBody k ++ '"' ::
          (':' :: (serializeSkeleton v ++
            (serializeMoreFields fs2 ++ '}' :: rest))))) := by
      simp [serializeMoreFields, encodeJsonString]
    rw [hin]
    simp +decide only [decodeMoreFields,
      decodeString_encode k
        (':' :: (serializeSkeleton v ++ (serializeMoreFields fs2 ++ '}' :: rest))),
      decodeSkeleton_serialize v (serializeMoreFields fs2 ++ '}' :: rest) f hfv,
      decodeMoreFields_serialize fs2 rest f hffs, if_true, if_false]

end

/-- Distinct skeletons serialise to distinct canonical strings. -/
theorem serializeSkeleton_injective (s1 s2 : Skeleton)
    (h : serializeSkeleton s1 = serializeSkeleton s2) : s1 = s2 := by
  have h1 := decodeSkeleton_serialize s1 [] (skFuel s1 + skFuel s2)
    (by omega)
  have h2 := decodeSkeleton_serialize s2 [] (skFuel s1 + skFuel s2)
    (by omega)
  rw [List.append_nil] at h1 h2
  rw [h] at h1
  rw [h1] at h2
  simpa using h2

/-- Canonical strings factor through the sorted skeleton, and are distinct
for distinct sorted skeletons. -/
theorem create_canonical_string_inj (s1 s2 : Skeleton)
    (h : sortSkeleton s1 ≠ sortSkeleton s2) :
    create_canonical_string s1 ≠ create_canonical_string s2 := by
  intro he
  exact h (serializeSkeleton_injective _ _ he)

theorem foldl_combine_lt (l : List Nat) :
    ∀ acc B, acc < B →
      l.foldl (fun a x => a * 4294967296 + w32 x) acc < B * 4294967296 ^ l.length := by
  induction l with
  | nil => intro acc B h; simpa using h
  | cons x t ih =>
    intro acc B h
    have hx : w32 x < 4294967296 := Nat.mod_lt _ (by norm_num)
    have hstep : acc * 4294967296 + w32 x < B * 4294967296 := by
      calc acc * 4294967296 + w32 x < acc * 4294967296 + 4294967296 := by omega
        _ = (acc + 1) * 4294967296 := by ring
        _ ≤ B * 4294967296 := Nat.mul_le_mul_right _ (by omega)
    have := ih (acc * 4294967296 + w32 x) (B * 4294967296) hstep
    calc (x :: t).foldl (fun a x => a * 4294967296 + w32 x) acc
        = t.foldl (fun a x => a * 4294967296 + w32 x)
            (acc * 4294967296 + w32 x) := rfl
      _ < B * 4294967296 ^ (x :: t).length := by
          simpa [pow_succ, Nat.mul_assoc, Nat.mul_comm, Nat.mul_left_comm]
            using this

theorem processChunk_length (hs ws : List Nat) :
    (processChunk hs ws).length = 8 := rfl

theorem foldl_processChunk_length (l : List (List Nat)) :
    ∀ hs : List Nat, hs.length = 8 → (l.foldl processChunk hs).length = 8 := by
  induction l with
  | nil => intro hs h; simpa using h
  | cons c t ih =>
    intro hs h
    exact ih (processChunk hs c) rfl

/-- The digest value is below `2^256`: SHA-256 maps into a finite space. -/
theorem sha256Nat_lt (msg : List Nat) : sha256Nat msg < 2 ^ 256 := by
  have h8 : ((chunks64 (shaPad msg)).map bytesToWords |>.foldl
      processChunk shaInit).length = 8 :=
    foldl_processChunk_length _ shaInit rfl
  have := foldl_combine_lt
    ((chunks64 (shaPad msg)).map bytesToWords |>.foldl processChunk shaInit)
    0 1 (by norm_num)
  rw [h8] at this
  calc sha256Nat msg < 1 * 4294967296 ^ 8 := this
    _ = 2 ^ 256 := by norm_num

/-- The nucleus of `generate_fingerprint`: the digest as a number. -/
def fingerprintNat (payload : PyJson) : Nat :=
  sha256Nat (utf8Encode (create_canonical_string (extract_type_skeleton payload)))

theorem generate_fingerprint_eq_hex (payload : PyJson) :
    generate_fingerprint payload = hexDigest (fingerprintNat payload) := rfl

/-- The one-key payload family used for the pigeonhole collision: distinct
key lengths give distinct skeletons, but all fingerprints live in the
finite digest space. -/
def keyPayload (n : Nat) : PyJson :=
  .obj (.cons (List.replicate (n + 1) 'a') .none .nil)

theorem keyPayload_skeleton (n : Nat) :
    sortSkeleton (extract_type_skeleton (keyPayload n)) =
      .obj (.cons (List.replicate (n + 1) 'a') (.typeName "null".data) .nil) := rfl

theorem keyPayload_skeleton_ne (m n : Nat) (h : m ≠ n) :
    sortSkeleton (extract_type_skeleton (keyPayload m)) ≠
      sortSkeleton (extract_type_skeleton (keyPayload n)) := by
  rw [keyPayload_skeleton, keyPayload_skeleton]
  intro he
  apply h
  have hk : List.replicate (m + 1) 'a' = List.replicate (n + 1) 'a' := by
    injection he with h1
    injection h1
  have := congrArg List.length hk
  simpa using this

/-- By pigeonhole, infinitely many pairwise-distinct skeletons cannot all
receive distinct 256-bit digests: some two payloads with different
skeletons share a fingerprint. -/
theorem fingerprint_collision_exists :
    ∃ p1 p2 : PyJson,
      sortSkeleton (extract_type_skeleton p1) ≠
        sortSkeleton (extract_type_skeleton p2) ∧
      generate_fingerprint p1 = generate_fingerprint p2 := by
  have hfin : ∀ n : Nat, fingerprintNat (keyPayload n) < 2 ^ 256 :=
    fun n => sha256Nat_lt _
  obtain ⟨m, n, hmn, heq⟩ := Finite.exists_ne_map_eq_of_infinite
    (fun n : Nat => (⟨fingerprintNat (keyPayload n), hfin n⟩ : Fin (2 ^ 256)))
  refine ⟨keyPayload m, keyPayload n, keyPayload_skeleton_ne m n hmn, ?_⟩
  rw [generate_fingerprint_eq_hex, generate_fingerprint_eq_hex]
  exact congrArg hexDigest (congrArg Fin.val heq)

theorem hexDigest_length (n : Nat) : (hexDigest n).length = 64 := by
  simp [hexDigest]

theorem hexDigitChar_mem (k : Nat) :
    hexDigitChar (k % 16) ∈ "0123456789abcdef".data := by
  have h : k % 16 < 16 := Nat.mod_lt _ (by norm_num)
  generalize hm : k % 16 = m at h
  interval_cases m <;> decide

theorem hexDigest_chars (n : Nat) :
    ∀ c ∈ hexDigest n, c ∈ "0123456789abcdef".data := by
  intro c hc
  simp only [hexDigest, List.mem_map, List.mem_range] at hc
  obtain ⟨i, _, rfl⟩ := hc
  exact hexDigitChar_mem _

/-- A Python value whose runtime type is scalar (not `dict`, not `list`). -/
def isScalar (v : PyJson) : Bool :=
  match v with
  | .obj _ => false
  | .list _ => false
  | _ => true

/-- C1 (amended): `generate_fingerprint` is deterministic and always
returns a 64-character lowercase-hex digest; two payloads whose type
skeletons are equal as dicts (equal after recursive key sorting) always
receive equal digests; and two payloads whose skeletons differ always
produce different canonical hash-input strings, so their digests differ
unless SHA-256 itself collides on those two strings.  (Unconditional
digest inequality is refuted by the pigeonhole counterexample.) -/
theorem C1_fingerprint_shape_only :
    (∀ p : PyJson, generate_fingerprint p = generate_fingerprint p) ∧
    (∀ p : PyJson, (generate_fingerprint p).length = 64 ∧
      ∀ c ∈ generate_fingerprint p, c ∈ "0123456789abcdef".data) ∧
    (∀ p1 p2 : PyJson,
      sortSkeleton (extract_type_skeleton p1) =
        sortSkeleton (extract_type_skeleton p2) →
      generate_fingerprint p1 = generate_fingerprint p2) ∧
    (∀ p1 p2 : PyJson,
      sortSkeleton (extract_type_skeleton p1) ≠
        sortSkeleton (extract_type_skeleton p2) →
      create_canonical_string (extract_type_skeleton p1) ≠
        create_canonical_string (extract_type_skeleton p2)) := by
  refine ⟨fun p => rfl,
    fun p => ⟨hexDigest_length _, hexDigest_chars _⟩, ?_, ?_⟩
  · intro p1 p2 h
    show hexDigest (sha256Nat (utf8Encode (serializeSkeleton
        (sortSkeleton (extract_type_skeleton p1))))) = _
    rw [h]
    rfl
  · intro p1 p2 h
    exact create_canonical_string_inj _ _ h

theorem C1_fingerprint_shape_only_witness :
    sortSkeleton (extract_type_skeleton (.obj (.cons ['a'] (.int 1) .nil))) =
      sortSkeleton (extract_type_skeleton (.obj (.cons ['a'] (.int 2) .nil))) ∧
    generate_fingerprint (.obj (.cons ['a'] (.int 1) .nil)) =
      generate_fingerprint (.obj (.cons ['a'] (.int 2) .nil)) ∧
    sortSkeleton (extract_type_skeleton (.obj (.cons ['a'] (.int 1) .nil))) ≠
      sortSkeleton (extract_type_skeleton (.obj .nil)) ∧
    create_canonical_string (extract_type_skeleton
        (.obj (.cons ['a'] (.int 1) .nil))) ≠
      create_canonical_string (extract_type_skeleton (.obj .nil)) :=
  ⟨by decide,
   C1_fingerprint_shape_only.2.2.1 _ _ (by decide),
   by decide,
   C1_fingerprint_shape_only.2.2.2 _ _ (by decide)⟩

/-- C1 counterexample: the claim's final conjunct — payloads with
different skeletons always get different digests — is false: SHA-256 maps
the infinitely many distinct skeletons into the finite space of 256-bit
digests, so by pigeonhole two payloads with different skeletons share a
digest.  (No explicit colliding pair can be exhibited, but the negation
is proved outright.) -/
theorem C1_fingerprint_not_injective :
    ¬ ∀ p1 p2 : PyJson,
        sortSkeleton (extract_type_skeleton p1) ≠
          sortSkeleton (extract_type_skeleton p2) →
        generate_fingerprint p1 ≠ generate_fingerprint p2 := by
  intro hall
  obtain ⟨p1, p2, hne, heq⟩ := fingerprint_collision_exists
  exact hall p1 p2 hne heq

/-- C7: the skeleton edge cases — the empty object's canonical string is
the two characters of the empty JSON object and its fingerprint is the
SHA-256 hex digest of those bytes (with the concrete digest value
checked); an empty list value stays an empty list; a non-empty list of
scalars becomes a one-element list holding the first element's normalised
type name, later elements ignored; a non-empty list of objects becomes a
one-element list holding the first object's skeleton, later elements
ignored; and a null value maps to the type name string for null. -/
theorem C7_skeleton_edge_cases :
    (create_canonical_string (extract_type_skeleton (.obj .nil)) = ['{', '}'] ∧
      generate_fingerprint (.obj .nil) =
        hexDigest (sha256Nat (utf8Encode ['{', '}'])) ∧
      generate_fingerprint (.obj .nil) =
        "44136fa355b3678a1146ad16f7e8649e94fb4fc21fe77e8310c060f61caaff8a".data) ∧
    (∀ k : PyStr, extract_type_skeleton (.obj (.cons k (.list .nil) .nil)) =
      .obj (.cons k .emptyList .nil)) ∧
    (∀ (k : PyStr) (x : PyJson) (tail : PyItems), isScalar x = true →
      extract_type_skeleton (.obj (.cons k (.list (.cons x tail)) .nil)) =
        .obj (.cons k (.listOf (.typeName (normalize_type_name x))) .nil)) ∧
    (∀ (k : PyStr) (f : PyFields) (tail : PyItems),
      extract_type_skeleton (.obj (.cons k (.list (.cons (.obj f) tail)) .nil)) =
        .obj (.cons k (.listOf (extract_type_skeleton (.obj f))) .nil)) ∧
    (∀ k : PyStr, extract_type_skeleton (.obj (.cons k .none .nil)) =
      .obj (.cons k (.typeName "null".data) .nil)) := by
  refine ⟨⟨rfl, rfl, by decide⟩, fun k => rfl, ?_, fun k f tail => rfl,
    fun k => rfl⟩
  intro k x tail hx
  cases x <;> first | rfl | simp [isScalar] at hx

theorem C7_skeleton_edge_cases_witness :
    isScalar (.int 5) = true ∧
    extract_type_skeleton
        (.obj (.cons ['k'] (.list (.cons (.int 5) (.cons (.str ['z']) .nil))) .nil)) =
      .obj (.cons ['k'] (.listOf (.typeName "number".data)) .nil) :=
  ⟨by decide,
   C7_skeleton_edge_cases.2.2.1 ['k'] (.int 5) (.cons (.str ['z']) .nil) (by decide)⟩

/-- C9: a top-level payload that is not a dict is mapped by
`extract_type_skeleton` to the empty skeleton, so it fingerprints exactly
like the empty object, and any two non-object payloads share one
fingerprint. -/
theorem C9_nonobject_payloads_collide :
    (∀ p : PyJson, (∀ fields, p ≠ .obj fields) →
      extract_type_skeleton p = .obj .nil ∧
      generate_fingerprint p = generate_fingerprint (.obj .nil)) ∧
    (∀ p1 p2 : PyJson, (∀ fields, p1 ≠ .obj fields) →
      (∀ fields, p2 ≠ .obj fields) →
      generate_fingerprint p1 = generate_fingerprint p2) := by
  have hbase : ∀ p : PyJson, (∀ fields, p ≠ .obj fields) →
      extract_type_skeleton p = .obj .nil ∧
      generate_fingerprint p = generate_fingerprint (.obj .nil) := by
    intro p hp
    cases p with
    | obj fields => exact absurd rfl (hp fields)
    | list items => exact ⟨rfl, rfl⟩
    | str s => exact ⟨rfl, rfl⟩
    | int n => exact ⟨rfl, rfl⟩
    | float v => exact ⟨rfl, rfl⟩
    | bool b => exact ⟨rfl, rfl⟩
    | none => exact ⟨rfl, rfl⟩
  refine ⟨hbase, fun p1 p2 h1 h2 => ?_⟩
  rw [(hbase p1 h1).2, (hbase p2 h2).2]

theorem C9_nonobject_payloads_collide_witness :
    extract_type_skeleton (.str ['x']) = .obj .nil ∧
    generate_fingerprint (.str ['x']) = generate_fingerprint (.obj .nil) ∧
    generate_fingerprint (.list (.cons (.int 3) .nil)) =
      generate_fingerprint (.bool true) :=
  ⟨(C9_nonobject_payloads_collide.1 (.str ['x'])
      (fun _ h => PyJson.noConfusion h)).1,
   (C9_nonobject_payloads_collide.1 (.str ['x'])
      (fun _ h => PyJson.noConfusion h)).2,
   C9_nonobject_payloads_collide.2 _ _
      (fun _ h => PyJson.noConfusion h) (fun _ h => PyJson.noConfusion h)⟩

/-!  The canonicaliser's transform-result validation.  `jsonata.transform`
is an external library; its output value is the input of these embedded
validators, exactly as in `mapper.py`, `service.py` and `llm.py`. -/

/-- Python `key in dict`. -/
def hasKey : PyFields → PyStr → Bool
  | .nil, _ => false
  | .cons k _ rest, key => if k = key then true else hasKey rest key

/-- Python `dict[key]` / `dict.get(key)`. -/
def getKey : PyFields → PyStr → Option PyJson
  | .nil, _ => Option.none
  | .cons k v rest, key => if k = key then some v else getKey rest key

/-- Python `dict[key] = value`: replace in place, append if absent. -/
def setKey : PyFields → PyStr → PyJson → PyFields
  | .nil, key, value => .cons key value .nil
  | .cons k v rest, key, value =>
    if k = key then .cons k value rest else .cons k v (setKey rest key value)

/-- Escape the body of a Python `repr` string literal: backslash and the
chosen quote are escaped; other characters pass through.  (CPython also
`\x`-escapes control and non-printable characters; that is elided here and
cannot affect any membership test for `/`, `#`, or space, since those
escapes introduce only backslashes, letters and digits.) -/
def pyEscapeQuoted (q : Char) : PyStr → PyStr
  | [] => []
  | c :: rest =>
    (if c = '\\' then ['\\', '\\']
     else if c = q then ['\\', q]
     else [c]) ++ pyEscapeQuoted q rest

/-- Python `repr` of a string: single-quoted, or double-quoted when the
string contains a single quote but no double quote. -/
def pyQuoteRepr (s : PyStr) : PyStr :=
  if s.contains '\'' && !(s.contains '"') then
    '"' :: pyEscapeQuoted '"' s ++ ['"']
  else
    '\'' :: pyEscapeQuoted '\'' s ++ ['\'']

mutual

/-- Python `repr()` of a JSON-shaped value.  A float's text is abstracted
as its tag followed by `.0`; CPython's float repr differs textually but,
like every branch here, never contains `/`, `#`, or a space character
unless the underlying string data does, which is the only property any
embedded check reads off this function. -/
def pyReprOf : PyJson → PyStr
  | .str s => pyQuoteRepr s
  | .int n => (toString n).data
  | .float v => (toString v).data ++ ".0".data
  | .bool true => "True".data
  | .bool false => "False".data
  | .none => "None".data
  | .list items => '[' :: pyReprItems items ++ [']']
  | .obj fields => '{' :: pyReprFields fields ++ ['}']

/-- `repr` of list elements, `", "`-separated. -/
def pyReprItems : PyItems → PyStr
  | .nil => []
  | .cons v t => pyReprOf v ++ pyReprMoreItems t

/-- Second and later list elements. -/
def pyReprMoreItems : PyItems → PyStr
  | .nil => []
  | .cons v t => ',' :: ' ' :: (pyReprOf v ++ pyReprMoreItems t)

/-- `repr` of dict entries, `"k: v"` with `", "` separators. -/
def pyReprFields : PyFields → PyStr
  | .nil => []
  | .cons k v t => pyQuoteRepr k ++ ':' :: ' ' :: (pyReprOf v ++ pyReprMoreFields t)

/-- Second and later dict entries. -/
def pyReprMoreFields : PyFields → PyStr
  | .nil => []
  | .cons k v t =>
    ',' :: ' ' :: (pyQuoteRepr k ++ ':' :: ' ' :: (pyReprOf v ++ pyReprMoreFields t))

end

/-- Python `str()`: the identity on strings, `repr`-like elsewhere. -/
def pyStrOf (v : PyJson) : PyStr :=
  match v with
  | .str s => s
  | other => pyReprOf other

/-- The present-to-past action table of
`MappingEngine._apply_jsonata_mapping` (`src/langhook/map/mapper.py`
lines 186-192). -/
def action_mapping : List (PyStr × PyStr) :=
  [("create".data, "created".data), ("update".data, "updated".data),
   ("delete".data, "deleted".data), ("read".data, "read".data)]

/-- Python `value in action_mapping` plus the table lookup: only a string
equal to a key matches. -/
def lookupActionMapping (v : PyJson) : Option PyStr :=
  match v with
  | .str a => (action_mapping.find? (fun p => p.1 == a)).map (fun p => p.2)
  | _ => Option.none

/-- The past-tense action enum of the canonical format. -/
def valid_actions : List PyStr :=
  ["created".data, "read".data, "updated".data, "deleted".data]

/-- The present-tense enum checked by
`MappingService._apply_generated_mapping` (`src/langhook/map/service.py`
lines 258-266). -/
def valid_actions_generated : List PyStr :=
  ["create".data, "read".data, "update".data, "delete".data]

/-- Python `value in list_of_strings`: only a string equal to a member
matches. -/
def isStrMem (v : PyJson) (l : List PyStr) : Bool :=
  match v with
  | .str a => l.contains a
  | _ => false

/-- True when the string contains `/`, `#`, or a space — the
`any(char in resource_id for char in invalid_chars)` test with
`invalid_chars = ['/', '#', ' ']`. -/
def hasAtomicIdViolation (s : PyStr) : Bool :=
  s.any (fun c => c = '/' || c = '#' || c = ' ')

/-- True when the string contains `#` or a space — the same test with
`invalid_chars = ['#', ' ']` as in
`LLMSuggestionService._validate_jsonata_expression`
(`src/langhook/map/llm.py` lines 235-244, which deliberately allows `/`). -/
def hasIdViolationNoSlash (s : PyStr) : Bool :=
  s.any (fun c => c = '#' || c = ' ')

/-- The in-place update `result['action'] = action_mapping[result['action']]`
guarded by `result['action'] in action_mapping` (`mapper.py` lines 194-196):
a present-tense string action is replaced by its past-tense form, any other
action value is left alone. -/
def updateActionField (fields : PyFields) : PyFields :=
  match getKey fields "action".data with
  | some av =>
    match lookupActionMapping av with
    | some mapped => setKey fields "action".data (.str mapped)
    | Option.none => fields
  | Option.none => fields

/-- The validation half of `MappingEngine._apply_jsonata_mapping`
(`src/langhook/map/mapper.py` lines 142-225), applied to the
`jsonata.transform` output: require a dict with `publisher`, `resource`,
`action`; `resource` a dict with `type` and `id`; map a present-tense
action to past tense; require the (mapped) action in the past-tense enum;
reject a resource id whose string form contains `/`, `#`, or space; and
return the (action-updated) result. -/
def apply_jsonata_mapping_validate (result : PyJson) : Option PyJson :=
  match result with
  | .obj fields =>
    if hasKey fields "publisher".data && hasKey fields "resource".data &&
        hasKey fields "action".data then
      match getKey fields "resource".data with
      | some (.obj resource) =>
        if hasKey resource "type".data && hasKey resource "id".data then
          if isStrMem ((getKey (updateActionField fields) "action".data).getD .none)
              valid_actions then
            match getKey resource "id".data with
            | some idv =>
              if hasAtomicIdViolation (pyStrOf idv) then Option.none
              else some (.obj (updateActionField fields))
            | Option.none => Option.none
          else Option.none
        else Option.none
      | _ => Option.none
    else Option.none
  | _ => Option.none

/-- The validation of `MappingService._apply_generated_mapping`
(`src/langhook/map/service.py` lines 212-295), applied to the output of
the LLM-generated expression: same structural checks, but the action is
validated against the present-tense enum with no present-to-past mapping,
and the result is returned unchanged. -/
def apply_generated_mapping_validate (result : PyJson) : Option PyJson :=
  match result with
  | .obj fields =>
    if hasKey fields "publisher".data && hasKey fields "resource".data &&
        hasKey fields "action".data then
      match getKey fields "resource".data with
      | some (.obj resource) =>
        if hasKey resource "type".data && hasKey resource "id".data then
          if isStrMem ((getKey fields "action".data).getD .none)
              valid_actions_generated then
            match getKey resource "id".data with
            | some idv =>
              if hasAtomicIdViolation (pyStrOf idv) then Option.none
              else some (.obj fields)
            | Option.none => Option.none
          else Option.none
        else Option.none
      | _ => Option.none
    else Option.none
  | _ => Option.none

/-- `LLMSuggestionService._validate_jsonata_expression`
(`src/langhook/map/llm.py` lines 178-266), applied to the test-transform
output: dict with `publisher`, `resource`, `action`, `timestamp`;
`resource` a dict with `type` and `id`; action in the past-tense enum;
resource id free of `#` and space (slash allowed); timestamp a string. -/
def validate_jsonata_expression (result : PyJson) : Bool :=
  match result with
  | .obj fields =>
    if hasKey fields "publisher".data && hasKey fields "resource".data &&
        hasKey fields "action".data && hasKey fields "timestamp".data then
      match getKey fields "resource".data with
      | some (.obj resource) =>
        if hasKey resource "type".data && hasKey resource "id".data then
          if isStrMem ((getKey fields "action".data).getD .none)
              valid_actions then
            match getKey resource "id".data with
            | some idv =>
              if hasIdViolationNoSlash (pyStrOf idv) then false
              else
                match getKey fields "timestamp".data with
                | some (.str _) => true
                | _ => false
            | Option.none => false
          else false
        else false
      | _ => false
    else false
  | _ => false

/-- The string form of a result's `resource.id`, when present. -/
def resourceIdStr (result : PyJson) : Option PyStr :=
  match result with
  | .obj fields =>
    match getKey fields "resource".data with
    | some (.obj resource) => (getKey resource "id".data).map pyStrOf
    | _ => Option.none
  | _ => Option.none

theorem getKey_setKey_ne : ∀ (fields : PyFields) (key k : PyStr) (v : PyJson),
    ¬ k = key → getKey (setKey fields key v) k = getKey fields k
  | .nil, key, k, v, h => by
    have h2 : ¬ key = k := fun he => h he.symm
    simp [setKey, getKey, if_neg h2]
  | .cons k2 v2 rest, key, k, v, h => by
    by_cases h2 : k2 = key
    · subst h2
      have h3 : ¬ (k2 = k) := fun he => h he.symm
      simp [setKey, getKey, if_neg h3]
    · simp only [setKey, if_neg h2, getKey]
      by_cases h3 : k2 = k
      · simp [if_pos h3]
      · simp [if_neg h3, getKey_setKey_ne rest key k v h]

theorem getKey_updateActionField_ne (fields : PyFields) (k : PyStr)
    (h : ¬ k = "action".data) :
    getKey (updateActionField fields) k = getKey fields k := by
  rw [updateActionField]
  split
  · split
    · rw [getKey_setKey_ne _ _ _ _ h]
    · rfl
  · rfl

theorem no_violation_mem (s : PyStr) (h : hasAtomicIdViolation s = false) :
    '/' ∉ s ∧ '#' ∉ s ∧ ' ' ∉ s := by
  rw [hasAtomicIdViolation, List.any_eq_false] at h
  exact ⟨fun hm => h '/' hm (by decide), fun hm => h '#' hm (by decide),
    fun hm => h ' ' hm (by decide)⟩

theorem no_violation_mem_noslash (s : PyStr)
    (h : hasIdViolationNoSlash s = false) : '#' ∉ s ∧ ' ' ∉ s := by
  rw [hasIdViolationNoSlash, List.any_eq_false] at h
  exact ⟨fun hm => h '#' hm (by decide), fun hm => h ' ' hm (by decide)⟩

theorem mapper_validate_id_chars :
    ∀ r r', apply_jsonata_mapping_validate r = some r' →
      ∃ s, resourceIdStr r' = some s ∧ '/' ∉ s ∧ '#' ∉ s ∧ ' ' ∉ s := by
  intro r r' h
  cases r <;> simp only [apply_jsonata_mapping_validate] at h <;>
    try exact Option.noConfusion h
  rename_i fields
  split at h
  case isFalse => exact Option.noConfusion h
  split at h
  rotate_left
  · exact Option.noConfusion h
  rename_i resource hres
  split at h
  case isFalse => exact Option.noConfusion h
  rename_i hrty
  split at h
  case isFalse => exact Option.noConfusion h
  split at h
  rotate_left
  · exact Option.noConfusion h
  rename_i idv hid
  split at h
  case isTrue => exact Option.noConfusion h
  rename_i hviol
  injection h with h
  subst h
  obtain ⟨m1, m2, m3⟩ := no_violation_mem _ (by simpa using hviol)
  refine ⟨pyStrOf idv, ?_, m1, m2, m3⟩
  simp only [resourceIdStr,
    getKey_updateActionField_ne fields ("resource".data) (by decide),
    hres, hid]
  rfl

theorem generated_validate_id_chars :
    ∀ r r', apply_generated_mapping_validate r = some r' →
      ∃ s, resourceIdStr r' = some s ∧ '/' ∉ s ∧ '#' ∉ s ∧ ' ' ∉ s := by
  intro r r' h
  cases r <;> simp only [apply_generated_mapping_validate] at h <;>
    try exact Option.noConfusion h
  rename_i fields
  split at h
  case isFalse => exact Option.noConfusion h
  split at h
  rotate_left
  · exact Option.noConfusion h
  rename_i resource hres
  split at h
  case isFalse => exact Option.noConfusion h
  rename_i hrty
  split at h
  case isFalse => exact Option.noConfusion h
  split at h
  rotate_left
  · exact Option.noConfusion h
  rename_i idv hid
  split at h
  case isTrue => exact Option.noConfusion h
  rename_i hviol
  injection h with h
  subst h
  obtain ⟨m1, m2, m3⟩ := no_violation_mem _ (by simpa using hviol)
  refine ⟨pyStrOf idv, ?_, m1, m2, m3⟩
  simp only [resourceIdStr, hres, hid]
  rfl

theorem expression_validate_id_chars :
    ∀ r, validate_jsonata_expression r = true →
      ∃ s, resourceIdStr r = some s ∧ '#' ∉ s ∧ ' ' ∉ s := by
  intro r h
  cases r <;> simp only [validate_jsonata_expression] at h <;>
    try exact Bool.noConfusion h
  rename_i fields
  split at h
  case isFalse => exact Bool.noConfusion h
  split at h
  rotate_left
  · exact Bool.noConfusion h
  rename_i resource hres
  split at h
  case isFalse => exact Bool.noConfusion h
  rename_i hrty
  split at h
  case isFalse => exact Bool.noConfusion h
  split at h
  rotate_left
  · exact Bool.noConfusion h
  rename_i idv hid
  split at h
  case isTrue => exact Bool.noConfusion h
  rename_i hviol
  obtain ⟨m1, m2⟩ := no_violation_mem_noslash _ (by simpa using hviol)
  refine ⟨pyStrOf idv, ?_, m1, m2⟩
  simp only [resourceIdStr, hres, hid]
  rfl

/-- A transform result in the canonical shape, with the given action
string and resource id value. -/
def sampleResult (a : PyStr) (idv : PyJson) : PyJson :=
  .obj (.cons "publisher".data (.str "github".data)
    (.cons "resource".data
      (.obj (.cons "type".data (.str "pull_request".data)
        (.cons "id".data idv .nil)))
    (.cons "action".data (.str a)
    (.cons "timestamp".data (.str "2025-06-03T15:45:02Z".data) .nil))))

/-- C2 (amended): every transform result accepted by the cached-mapping
validation (`mapper.py`) or by the generated-mapping application
validation (`service.py`) has a resource id whose string form contains
none of `/`, `#`, or space — so all canonical events produced by either
path satisfy the invariant; but the LLM expression validator (`llm.py`)
checks only `#` and space and deliberately allows `/`, so on that
validation path a result with `/` in its id is not rejected. -/
theorem C2_resource_id_atomic :
    (∀ r r', apply_jsonata_mapping_validate r = some r' →
      ∃ s, resourceIdStr r' = some s ∧ '/' ∉ s ∧ '#' ∉ s ∧ ' ' ∉ s) ∧
    (∀ r r', apply_generated_mapping_validate r = some r' →
      ∃ s, resourceIdStr r' = some s ∧ '/' ∉ s ∧ '#' ∉ s ∧ ' ' ∉ s) ∧
    (∀ r, validate_jsonata_expression r = true →
      ∃ s, resourceIdStr r = some s ∧ '#' ∉ s ∧ ' ' ∉ s) :=
  ⟨mapper_validate_id_chars, generated_validate_id_chars,
   expression_validate_id_chars⟩

theorem C2_resource_id_atomic_witness :
    apply_jsonata_mapping_validate (sampleResult "create".data (.int 1374)) =
      some (sampleResult "created".data (.int 1374)) ∧
    (∃ s, resourceIdStr (sampleResult "created".data (.int 1374)) = some s ∧
      '/' ∉ s ∧ '#' ∉ s ∧ ' ' ∉ s) ∧
    apply_generated_mapping_validate (sampleResult "create".data (.int 1374)) =
      some (sampleResult "create".data (.int 1374)) ∧
    (∃ s, resourceIdStr (sampleResult "create".data (.int 1374)) = some s ∧
      '/' ∉ s ∧ '#' ∉ s ∧ ' ' ∉ s) ∧
    validate_jsonata_expression (sampleResult "created".data (.int 1374)) = true ∧
    (∃ s, resourceIdStr (sampleResult "created".data (.int 1374)) = some s ∧
      '#' ∉ s ∧ ' ' ∉ s) :=
  ⟨by decide,
   C2_resource_id_atomic.1 (sampleResult "create".data (.int 1374))
     (sampleResult "created".data (.int 1374)) (by decide),
   by decide,
   C2_resource_id_atomic.2.1 (sampleResult "create".data (.int 1374))
     (sampleResult "create".data (.int 1374)) (by decide),
   by decide,
   C2_resource_id_atomic.2.2 (sampleResult "created".data (.int 1374))
     (by decide)⟩

/-- C2 counterexample: the LLM expression validator accepts a transform
result whose resource id contains `/` — `'a/b'` passes
`_validate_jsonata_expression`, so "any transform result whose
resource.id contains one of `/`, `#`, space is rejected" fails on that
path. -/
theorem C2_llm_validator_allows_slash :
    validate_jsonata_expression
        (sampleResult "created".data (.str "org/repo".data)) = true ∧
    resourceIdStr (sampleResult "created".data (.str "org/repo".data)) =
      some "org/repo".data ∧
    '/' ∈ "org/repo".data := by decide

/-- C3 (code bug): the cached-mapping path maps present-to-past and then
accepts exactly the past-tense enum, but `_apply_generated_mapping` in
`service.py` — whose own docstring says it "uses the same validation
logic as the mapping engine" — validates the raw action against the
present-tense enum with no mapping: the past-tense result `created`,
which the generation-time validator `_validate_jsonata_expression`
demands and the cached path accepts, is rejected there, while `update`
is accepted and emitted unnormalised, outside the canonical enum. -/
theorem C3_generated_path_action_divergence :
    apply_generated_mapping_validate (sampleResult "created".data (.int 1374)) =
      Option.none ∧
    apply_jsonata_mapping_validate (sampleResult "created".data (.int 1374)) =
      some (sampleResult "created".data (.int 1374)) ∧
    validate_jsonata_expression (sampleResult "created".data (.int 1374)) =
      true ∧
    apply_generated_mapping_validate (sampleResult "update".data (.int 1374)) =
      some (sampleResult "update".data (.int 1374)) ∧
    isStrMem (.str "update".data) valid_actions = false ∧
    apply_jsonata_mapping_validate (sampleResult "update".data (.int 1374)) =
      some (sampleResult "updated".data (.int 1374)) := by decide

/-!  The LLM gate evaluator of `src/langhook/subscriptions/gate.py`.  The
chat-model call and `json.loads` are external collaborators, passed in as
inputs; everything else is the embedded code. -/

/-- Does `s` start with `pat`? -/
def startsWithChars : PyStr → PyStr → Bool
  | [], _ => true
  | _ :: _, [] => false
  | p :: ps, c :: cs => p = c && startsWithChars ps cs

/-- First index at or after the running index `i` where `pat` occurs. -/
def findSubAux (pat : PyStr) : PyStr → Nat → Option Nat
  | [], i => if pat.isEmpty then some i else Option.none
  | c :: t, i =>
    if startsWithChars pat (c :: t) then some i else findSubAux pat t (i + 1)

/-- Python `pat in s` for strings. -/
def containsSub (s pat : PyStr) : Bool := (findSubAux pat s 0).isSome

/-- Python `s.find(pat, start)`: first occurrence index, `-1` if absent. -/
def pyFind (s pat : PyStr) (start : Nat) : Int :=
  match findSubAux pat (s.drop start) start with
  | some i => i
  | Option.none => -1

/-- Python `s.rfind(c)` for a single character: last occurrence, `-1` if
absent. -/
def pyRFindChar (s : PyStr) (c : Char) : Int :=
  let rec go : PyStr → Nat → Int → Int
    | [], _, best => best
    | x :: t, i, best => go t (i + 1) (if x = c then i else best)
  go s 0 (-1)

/-- Python slice `s[a:b]` with a non-negative start and a possibly
negative end. -/
def pySlice (s : PyStr) (a : Nat) (b : Int) : PyStr :=
  let n : Int := s.length
  let bIdx : Nat := if b < 0 then (max 0 (n + b)).toNat else (min b n).toNat
  (s.take bIdx).drop a

/-- ASCII whitespace as stripped by Python `str.strip()`.  (Python also
strips other Unicode whitespace; the responses handled here are ASCII.) -/
def isPyWs (c : Char) : Bool :=
  c = ' ' || c = Char.ofNat 9 || c = Char.ofNat 10 || c = Char.ofNat 13 ||
    c = Char.ofNat 11 || c = Char.ofNat 12

/-- Python `s.strip()`. -/
def pyStrStrip (s : PyStr) : PyStr :=
  (s.dropWhile isPyWs).reverse.dropWhile isPyWs |>.reverse

/-- Python truthiness `bool(x)` on JSON-shaped values.  A float is truthy
when its tag is non-zero (the tag stands for the numeric value). -/
def pyTruthy (v : PyJson) : Bool :=
  match v with
  | .bool b => b
  | .int n => decide (n ≠ 0)
  | .float t => decide (t ≠ 0)
  | .str s => !s.isEmpty
  | .list .nil => false
  | .list (.cons _ _) => true
  | .obj .nil => false
  | .obj (.cons _ _ _) => true
  | .none => false

/-- Decimal digits as a natural number, `none` when empty. -/
def digitsVal : PyStr → Option Nat → Option Nat
  | [], acc => acc
  | c :: t, acc =>
    if 48 ≤ c.toNat ∧ c.toNat ≤ 57 then
      digitsVal t (some ((acc.getD 0) * 10 + (c.toNat - 48)))
    else Option.none

/-- Python `float(str)` on finite decimal/scientific literals: optional
whitespace and sign, digits with an optional fraction, an optional
exponent.  (`inf`/`nan` literals and underscore separators are not
modelled; no embedded check depends on them.) -/
def parseFloatStr (s : PyStr) : Option Rat :=
  let t := pyStrStrip s
  let (sign, t) : Int × PyStr :=
    match t with
    | '-' :: r => (-1, r)
    | '+' :: r => (1, r)
    | r => (1, r)
  let intPart := t.takeWhile (fun c => 48 ≤ c.toNat ∧ c.toNat ≤ 57)
  let t := t.dropWhile (fun c => 48 ≤ c.toNat ∧ c.toNat ≤ 57)
  let (fracPart, t) : PyStr × PyStr :=
    match t with
    | '.' :: r => (r.takeWhile (fun c => 48 ≤ c.toNat ∧ c.toNat ≤ 57),
        r.dropWhile (fun c => 48 ≤ c.toNat ∧ c.toNat ≤ 57))
    | r => ([], r)
  if intPart.isEmpty ∧ fracPart.isEmpty then Option.none
  else
    let mantissa : Rat := (sign * (digitsVal (intPart ++ fracPart) (some 0)).getD 0 : Int) /
      ((10 : Rat) ^ fracPart.length)
    match t with
    | [] => some mantissa
    | e :: r =>
      if e = 'e' ∨ e = 'E' then
        let (esign, r) : Int × PyStr :=
          match r with
          | '-' :: r2 => (-1, r2)
          | '+' :: r2 => (1, r2)
          | r2 => (1, r2)
        match digitsVal (r.takeWhile (fun c => 48 ≤ c.toNat ∧ c.toNat ≤ 57))
            Option.none with
        | some ev =>
          if r.dropWhile (fun c => 48 ≤ c.toNat ∧ c.toNat ≤ 57) = [] then
            some (mantissa * (10 : Rat) ^ (esign * ev))
          else Option.none
        | Option.none => Option.none
      else Option.none

/-- Python `float(x)` on JSON-shaped values: numbers and bools convert,
numeric strings parse, anything else raises (`none`). -/
def pyFloat (v : PyJson) : Option Rat :=
  match v with
  | .int n => some (n : Rat)
  | .float t => some (t : Rat)
  | .bool b => some (if b then 1 else 0)
  | .str s => parseFloatStr s
  | _ => Option.none

/-- The string surgery of `LLMGateService._parse_llm_response`
(`src/langhook/subscriptions/gate.py` lines 203-224): strip, cut out a
```` ```json ```` or ```` ``` ```` fenced block if present, then take the
largest `\x7b...\x7d` span if both braces occur. -/
def preprocessResponse (response : PyStr) : PyStr :=
  let r := pyStrStrip response
  let r :=
    if containsSub r "```json".data then
      let s := (pyFind r "```json".data 0).toNat + 7
      pyStrStrip (pySlice r s (pyFind r "```".data s))
    else if containsSub r "```".data then
      let s := (pyFind r "```".data 0).toNat + 3
      pyStrStrip (pySlice r s (pyFind r "```".data s))
    else r
  if r.contains '{' && r.contains '}' then
    pySlice r (pyFind r ['{'] 0).toNat (pyRFindChar r '}' + 1)
  else r

/-- The normalised gate decision: the three fields the evaluator reads. -/
structure ParsedGateResponse where
  decision : Bool
  confidence : Rat
  reasoning : PyStr
  deriving DecidableEq

/-- The parse-failure fallback dict of `_parse_llm_response` lines
242-248 (the Python reason carries the exception text after this
prefix). -/
def parseFailureResponse : ParsedGateResponse :=
  ⟨false, 0, "Failed to parse LLM response: ".data⟩

/-- `LLMGateService._parse_llm_response` (`gate.py` lines 203-248) with
`json.loads` passed in: preprocess, parse, default the three fields
(`decision` to `False`, `confidence` to `0.0`, `reasoning` to a stock
string), then coerce them with `bool`/`float`/`str`.  A parse failure, a
non-dict parse (whose membership test or item assignment raises), or a
`float()` failure all land in the fallback dict. -/
def parse_llm_response (loads : PyStr → Option PyJson) (response : PyStr) :
    ParsedGateResponse :=
  match loads (preprocessResponse response) with
  | some (.obj fields) =>
    let decisionV := if hasKey fields "decision".data then
        (getKey fields "decision".data).getD .none else .bool false
    let confidenceV := if hasKey fields "confidence".data then
        (getKey fields "confidence".data).getD .none else .float 0
    let reasoningV := if hasKey fields "reasoning".data then
        (getKey fields "reasoning".data).getD .none
      else .str "No reasoning provided".data
    match pyFloat confidenceV with
    | some q => ⟨pyTruthy decisionV, q, pyStrOf reasoningV⟩
    | Option.none => parseFailureResponse
  | some _ => parseFailureResponse
  | Option.none => parseFailureResponse

/-- The gate configuration fields read by `evaluate_event`
(`gate.py` lines 72-75): each is `gate_config.get(key, default)`. -/
structure GateConfig where
  model : Option PyStr
  threshold : Option Rat
  failover_policy : Option PyStr
  prompt : Option PyStr

/-- `gate_config.get("failover_policy", "fail_open")`. -/
def failoverOf (cfg : GateConfig) : PyStr :=
  cfg.failover_policy.getD "fail_open".data

/-- `gate_config.get("threshold", 0.8)`. -/
def thresholdOf (cfg : GateConfig) : Rat :=
  cfg.threshold.getD (4 / 5)

/-- `LLMGateService.evaluate_event` (`gate.py` lines 53-188), returning
`(should_pass, reason, confidence)`.  The LLM interaction is the
`llmCall` input: service unavailable short-circuits before it; a raised
call lands in the outer `except`; a returned response is parsed and
gated by `raw_decision and confidence >= threshold`.  Metrics, logging
and cost recording have no effect on the returned triple. -/
def evaluate_event (available : Bool) (llmCall : Except PyStr PyStr)
    (loads : PyStr → Option PyJson) (cfg : GateConfig) :
    Bool × PyStr × Rat :=
  let failover := failoverOf cfg
  if !available then
    (failover == "fail_open".data, "LLM service unavailable".data, 0)
  else
    match llmCall with
    | .error e =>
      (failover == "fail_open".data, "Gate evaluation error: ".data ++ e, 0)
    | .ok response =>
      let parsed := parse_llm_response loads response
      (parsed.decision && decide (thresholdOf cfg ≤ parsed.confidence),
       parsed.reasoning, parsed.confidence)

/-- C5: when the LLM service is unavailable, or the LLM call raises, the
gate evaluator returns decision `failover_policy == "fail_open"` with a
reason string and zero confidence — `fail_open` passes and `fail_closed`
blocks in exactly these two failure cases. -/
theorem C5_gate_failover :
    (∀ (llmCall : Except PyStr PyStr) (loads : PyStr → Option PyJson)
        (cfg : GateConfig),
      evaluate_event false llmCall loads cfg =
        (failoverOf cfg == "fail_open".data,
         "LLM service unavailable".data, 0)) ∧
    (∀ (e : PyStr) (loads : PyStr → Option PyJson) (cfg : GateConfig),
      evaluate_event true (.error e) loads cfg =
        (failoverOf cfg == "fail_open".data,
         "Gate evaluation error: ".data ++ e, 0)) ∧
    (∀ (llmCall : Except PyStr PyStr) (e : PyStr)
        (loads : PyStr → Option PyJson) (cfg : GateConfig),
      cfg.failover_policy = some "fail_open".data →
      (evaluate_event false llmCall loads cfg).1 = true ∧
      (evaluate_event true (.error e) loads cfg).1 = true) ∧
    (∀ (llmCall : Except PyStr PyStr) (e : PyStr)
        (loads : PyStr → Option PyJson) (cfg : GateConfig),
      cfg.failover_policy = some "fail_closed".data →
      (evaluate_event false llmCall loads cfg).1 = false ∧
      (evaluate_event true (.error e) loads cfg).1 = false) := by
  refine ⟨fun _ _ _ => rfl, fun _ _ _ => rfl, ?_, ?_⟩
  · intro llmCall e loads cfg h
    constructor <;> simp [evaluate_event, failoverOf, h]
  · intro llmCall e loads cfg h
    constructor <;> simp [evaluate_event, failoverOf, h]

theorem C5_gate_failover_witness :
    (⟨Option.none, Option.none, some "fail_open".data, Option.none⟩ :
        GateConfig).failover_policy = some "fail_open".data ∧
    (evaluate_event false (.ok []) (fun _ => Option.none)
      ⟨Option.none, Option.none, some "fail_open".data, Option.none⟩).1 =
        true ∧
    (evaluate_event true (.error "boom".data) (fun _ => Option.none)
      ⟨Option.none, Option.none, some "fail_closed".data, Option.none⟩).1 =
        false :=
  ⟨rfl,
   (C5_gate_failover.2.2.1 (.ok []) "x".data (fun _ => Option.none)
     ⟨Option.none, Option.none, some "fail_open".data, Option.none⟩ rfl).1,
   (C5_gate_failover.2.2.2 (.ok []) "boom".data (fun _ => Option.none)
     ⟨Option.none, Option.none, some "fail_closed".data, Option.none⟩ rfl).2⟩

/-- C10: the gate passes only when the parsed decision is true and the
parsed confidence reaches the threshold; a response parsing to a dict
without a `confidence` key gets confidence `0.0` and is blocked at the
default threshold `0.8`; and a response `json.loads` cannot parse yields
the failure dict (decision false, confidence `0.0`) and is blocked at
every threshold. -/
theorem C10_gate_threshold_blocks :
    (∀ (loads : PyStr → Option PyJson) (r : PyStr) (cfg : GateConfig),
      (evaluate_event true (.ok r) loads cfg).1 = true →
        (parse_llm_response loads r).decision = true ∧
        thresholdOf cfg ≤ (parse_llm_response loads r).confidence) ∧
    (∀ (loads : PyStr → Option PyJson) (r : PyStr) (fields : PyFields),
      loads (preprocessResponse r) = some (.obj fields) →
      hasKey fields "confidence".data = false →
      (parse_llm_response loads r).confidence = 0 ∧
      ∀ cfg : GateConfig, cfg.threshold = Option.none →
        (evaluate_event true (.ok r) loads cfg).1 = false) ∧
    (∀ (loads : PyStr → Option PyJson) (r : PyStr),
      loads (preprocessResponse r) = Option.none →
      parse_llm_response loads r = parseFailureResponse ∧
      ∀ cfg : GateConfig, (evaluate_event true (.ok r) loads cfg).1 = false) := by
  refine ⟨?_, ?_, ?_⟩
  · intro loads r cfg h
    simp only [evaluate_event, Bool.not_true, Bool.false_eq_true, if_false,
      Bool.and_eq_true, decide_eq_true_iff] at h
    exact h
  · intro loads r fields hl hc
    have hconf : (parse_llm_response loads r).confidence = 0 := by
      simp only [parse_llm_response, hl, hc, Bool.false_eq_true, if_false,
        pyFloat]
      norm_num
    refine ⟨hconf, fun cfg hth => ?_⟩
    simp only [evaluate_event, Bool.not_true, Bool.false_eq_true, if_false,
      hconf, thresholdOf, hth, Option.getD_none]
    simp [show ¬((4 : Rat) / 5 ≤ 0) by norm_num]
  · intro loads r hl
    have hp : parse_llm_response loads r = parseFailureResponse := by
      simp [parse_llm_response, hl]
    exact ⟨hp, fun cfg => by simp [evaluate_event, hp, parseFailureResponse]⟩

theorem C10_gate_threshold_blocks_witness :
    (fun _ : PyStr =>
        some (PyJson.obj (.cons "decision".data (.bool true) .nil)))
        (preprocessResponse []) =
      some (.obj (.cons "decision".data (.bool true) .nil)) ∧
    hasKey (.cons "decision".data (.bool true) .nil) "confidence".data =
      false ∧
    (parse_llm_response
      (fun _ => some (.obj (.cons "decision".data (.bool true) .nil)))
      []).confidence = 0 ∧
    (evaluate_event true (.ok [])
      (fun _ => some (.obj (.cons "decision".data (.bool true) .nil)))
      ⟨Option.none, Option.none, Option.none, Option.none⟩).1 = false ∧
    parse_llm_response (fun _ => Option.none) [] = parseFailureResponse ∧
    (evaluate_event true (.ok []) (fun _ => Option.none)
      ⟨Option.none, Option.none, Option.none, Option.none⟩).1 = false ∧
    (evaluate_event true (.ok [])
      (fun _ => some (.obj (.cons "decision".data (.bool true)
        (.cons "confidence".data (.int 1) .nil))))
      ⟨Option.none, some 0, Option.none, Option.none⟩).1 = true ∧
    (parse_llm_response
      (fun _ => some (.obj (.cons "decision".data (.bool true)
        (.cons "confidence".data (.int 1) .nil)))) []).decision = true :=
  ⟨rfl, rfl,
   (C10_gate_threshold_blocks.2.1
     (fun _ => some (.obj (.cons "decision".data (.bool true) .nil))) []
     (.cons "decision".data (.bool true) .nil) rfl rfl).1,
   (C10_gate_threshold_blocks.2.1
     (fun _ => some (.obj (.cons "decision".data (.bool true) .nil))) []
     (.cons "decision".data (.bool true) .nil) rfl rfl).2
     ⟨Option.none, Option.none, Option.none, Option.none⟩ rfl,
   (C10_gate_threshold_blocks.2.2 (fun _ => Option.none) [] rfl).1,
   (C10_gate_threshold_blocks.2.2 (fun _ => Option.none) [] rfl).2
     ⟨Option.none, Option.none, Option.none, Option.none⟩,
   by decide,
   (C10_gate_threshold_blocks.1
     (fun _ => some (.obj (.cons "decision".data (.bool true)
       (.cons "confidence".data (.int 1) .nil)))) []
     ⟨Option.none, some 0, Option.none, Option.none⟩ (by decide)).1⟩

/-!  The schema registry of
`src/langhook/subscriptions/schema_registry.py`.  The database session is
the external collaborator; its outcome is the input. -/

/-- A raised Python exception, distinguished by which handler of
`schema_registry.py` catches it (`except SQLAlchemyError` vs the generic
`except Exception`). -/
inductive PyExc where
  | sqlalchemyError (msg : PyStr)
  | otherError (msg : PyStr)
  deriving DecidableEq

/-- A row of the `event_schema_registry` table. -/
structure EventSchemaEntry where
  publisher : PyStr
  resource_type : PyStr
  action : PyStr
  deriving DecidableEq

/-- The summary structure returned by `get_schema_summary`. -/
structure SchemaSummary where
  publishers : List PyStr
  resource_types : List (PyStr × List PyStr)
  actions : List PyStr
  deriving DecidableEq

/-- Insert into a sorted string list. -/
def insertSorted (x : PyStr) : List PyStr → List PyStr
  | [] => [x]
  | y :: t => if keyLe x y then x :: y :: t else y :: insertSorted x t

/-- Insertion sort on strings (Python `list.sort()`). -/
def sortStrings : List PyStr → List PyStr
  | [] => []
  | x :: t => insertSorted x (sortStrings t)

/-- Python `sorted(list({...}))`: the distinct elements in order. -/
def sortedUnique (l : List PyStr) : List PyStr := sortStrings l.dedup

/-- `SchemaRegistryService.register_event_schema`
(`schema_registry.py` lines 18-73): the INSERT ... ON CONFLICT DO NOTHING
runs in the session; both a `SQLAlchemyError` and any other exception are
caught, logged, and swallowed — the call always returns normally. -/
def register_event_schema (dbInsert : Except PyExc Unit) : Except PyExc Unit :=
  match dbInsert with
  | .ok _ => .ok ()
  | .error (.sqlalchemyError _) => .ok ()
  | .error (.otherError _) => .ok ()

/-- The summary built from the queried rows (`schema_registry.py` lines
85-110): sorted distinct publishers and actions, and per-publisher sorted
distinct resource types. -/
def build_schema_summary (entries : List EventSchemaEntry) : SchemaSummary :=
  let publishers := sortedUnique (entries.map (fun e => e.publisher))
  { publishers := publishers
    resource_types := publishers.map (fun p =>
      (p, sortedUnique ((entries.filter
        (fun e => e.publisher == p)).map (fun e => e.resource_type))))
    actions := sortedUnique (entries.map (fun e => e.action)) }

/-- The empty summary returned on any database error. -/
def emptySchemaSummary : SchemaSummary := ⟨[], [], []⟩

/-- `SchemaRegistryService.get_schema_summary` (`schema_registry.py`
lines 75-123): build the summary from the queried rows; on a
`SQLAlchemyError` or any other exception return the empty structure. -/
def get_schema_summary (dbQuery : Except PyExc (List EventSchemaEntry)) :
    Except PyExc SchemaSummary :=
  match dbQuery with
  | .ok entries => .ok (build_schema_summary entries)
  | .error (.sqlalchemyError _) => .ok emptySchemaSummary
  | .error (.otherError _) => .ok emptySchemaSummary

/-- C8: the registry operations never raise to their callers — `register`
returns normally whatever the database outcome, and `summary` returns the
empty `(publishers, resource_types, actions)` structure instead of
propagating a database error (and the built summary on success). -/
theorem C8_schema_registry_swallows_errors :
    (∀ dbInsert : Except PyExc Unit,
      register_event_schema dbInsert = .ok ()) ∧
    (∀ e : PyExc, get_schema_summary (.error e) = .ok emptySchemaSummary) ∧
    (∀ entries : List EventSchemaEntry,
      get_schema_summary (.ok entries) = .ok (build_schema_summary entries)) := by
  refine ⟨fun d => ?_, fun e => ?_, fun _ => rfl⟩
  · cases d with
    | ok u => rfl
    | error e => cases e <;> rfl
  · cases e <;> rfl

/-!  The pattern compiler of `src/langhook/subscriptions/llm.py` and the
subscription-create route of `src/langhook/subscriptions/routes.py`.  The
chat-model call and `json.loads` are inputs; the database insert is
modelled as the store append it performs. -/

/-- ASCII lowering (`str.lower()` restricted to ASCII; every marker and
pattern character handled here is ASCII). -/
def asciiLower (c : Char) : Char :=
  if 65 ≤ c.toNat ∧ c.toNat ≤ 90 then Char.ofNat (c.toNat + 32) else c

/-- Python `s.lower()` on ASCII text. -/
def pyLower (s : PyStr) : PyStr := s.map asciiLower

/-- The error indicators of `_is_no_schema_response`
(`src/langhook/subscriptions/llm.py` lines 347-359). -/
def no_schema_indicators : List PyStr :=
  ["error: no suitable schema found".data,
   "error: no registered schemas available".data,
   "no suitable schema".data,
   "no registered schemas".data,
   "cannot be mapped".data,
   "not available in".data,
   "schema not found".data]

/-- `LLMPatternService._is_no_schema_response`: lowercase, strip, and
test each indicator for substring containment. -/
def is_no_schema_response (response : PyStr) : Bool :=
  let rl := pyStrStrip (pyLower response)
  no_schema_indicators.any (fun ind => containsSub rl ind)

/-- A character of the pattern token class `[a-z0-9_\-*>]`. -/
def isPatternTokenChar (c : Char) : Bool :=
  (97 ≤ c.toNat && c.toNat ≤ 122) || (48 ≤ c.toNat && c.toNat ≤ 57) ||
    c = '_' || c = '-' || c = '*' || c = '>'

/-- Match the pattern regular expression
`langhook\.events\.([a-z0-9_\-*>]+\.)\x7b3\x7d[a-z0-9_\-*>]+` at the head
of `s` (tokens cannot contain the dot, so the regex match is the greedy
deterministic one), returning the matched text. -/
def matchPatternAt (s : PyStr) : Option PyStr :=
  if startsWithChars "langhook.events.".data s then
    let rest := s.drop 16
    let t1 := rest.takeWhile isPatternTokenChar
    match t1.isEmpty, rest.dropWhile isPatternTokenChar with
    | false, '.' :: r1 =>
      let t2 := r1.takeWhile isPatternTokenChar
      match t2.isEmpty, r1.dropWhile isPatternTokenChar with
      | false, '.' :: r2 =>
        let t3 := r2.takeWhile isPatternTokenChar
        match t3.isEmpty, r2.dropWhile isPatternTokenChar with
        | false, '.' :: r3 =>
          let t4 := r3.takeWhile isPatternTokenChar
          if t4.isEmpty then Option.none
          else some ("langhook.events.".data ++ t1 ++ '.' :: t2 ++ '.' :: t3
            ++ '.' :: t4)
        | _, _ => Option.none
      | _, _ => Option.none
    | _, _ => Option.none
  else Option.none

/-- `re.search` for the pattern regex: first match over all start
positions. -/
def searchPattern : PyStr → Option PyStr
  | [] => Option.none
  | c :: t =>
    match matchPatternAt (c :: t) with
    | some m => some m
    | Option.none => searchPattern t

/-- `LLMPatternService._extract_pattern_from_response` (`llm.py` lines
361-375): search the lowercased response for the pattern regex; failing
that, accept the whole stripped lowercased response when it is exactly a
pattern (the `^...$`-anchored match). -/
def extract_pattern_from_response (response : PyStr) : Option PyStr :=
  match searchPattern (pyLower response) with
  | some m => some m
  | Option.none =>
    let cleaned := pyLower (pyStrStrip response)
    match matchPatternAt cleaned with
    | some m => if m = cleaned then some cleaned else Option.none
    | Option.none => Option.none

/-- Python word characters `[A-Za-z0-9_]` (for the `\b` boundary). -/
def isWordChar (c : Char) : Bool :=
  (48 ≤ c.toNat && c.toNat ≤ 57) || (65 ≤ c.toNat && c.toNat ≤ 90) ||
    (97 ≤ c.toNat && c.toNat ≤ 122) || c = '_'

/-- Is `c` an ASCII digit? -/
def isDigitChar (c : Char) : Bool := 48 ≤ c.toNat && c.toNat ≤ 57

/-- `re.search(r'\b(\d+)\b', s)`: the first maximal digit run delimited
by non-word characters (or the string ends). -/
def findDigitRun : Option Char → PyStr → Option PyStr
  | _, [] => Option.none
  | prev, c :: t =>
    if isDigitChar c && (match prev with
        | Option.none => true
        | some p => !isWordChar p) then
      match t.dropWhile isDigitChar with
      | [] => some (c :: t.takeWhile isDigitChar)
      | a :: _ =>
        if isWordChar a then findDigitRun (some c) t
        else some (c :: t.takeWhile isDigitChar)
    else findDigitRun (some c) t

/-- `LLMPatternService._fallback_pattern_conversion` (`llm.py` lines
377-428): keyword detection over the lowercased description, a `\b`-digit
id extraction over the original description, past-tense action keyword
detection, and assembly of the dotted pattern. -/
def fallback_pattern_conversion (description : PyStr) : PyStr :=
  let dl := pyLower description
  let pr : PyStr × PyStr :=
    if containsSub dl "github".data || containsSub dl "pr".data ||
        containsSub dl "pull request".data then
      ("github".data,
       if containsSub dl "pr".data || containsSub dl "pull request".data
       then "pull_request".data else "*".data)
    else if containsSub dl "stripe".data || containsSub dl "payment".data then
      ("stripe".data,
       if containsSub dl "payment".data then "payment_intent".data
       else "*".data)
    else if containsSub dl "slack".data then ("slack".data, "*".data)
    else if containsSub dl "jira".data then ("jira".data, "*".data)
    else ("*".data, "*".data)
  let rid : PyStr := (findDigitRun Option.none description).getD "*".data
  let action : PyStr :=
    if containsSub dl "create".data || containsSub dl "created".data ||
        containsSub dl "new".data then "created".data
    else if containsSub dl "update".data || containsSub dl "updated".data ||
        containsSub dl "change".data || containsSub dl "modified".data then
      "updated".data
    else if containsSub dl "delete".data || containsSub dl "deleted".data ||
        containsSub dl "remove".data || containsSub dl "removed".data then
      "deleted".data
    else if containsSub dl "approve".data || containsSub dl "approved".data
      then "updated".data
    else "*".data
  "langhook.events.".data ++ pr.1 ++ '.' :: pr.2 ++ '.' :: rid ++
    '.' :: action

/-- `LLMPatternService._fallback_gate_prompt` (`llm.py` lines 459-468). -/
def fallback_gate_prompt (description : PyStr) : PyStr :=
  "Evaluate if this event matches the subscription: \"".data ++ description ++
    "\"\n\nReturn ONLY a JSON object:\n\x7b\n    \"decision\": true or false\n\x7d\n\nReturn true if the event matches what the user requested, false otherwise.".data

/-- The stock gate prompt used when JSON parsing of a gate-enabled
response fails but a pattern can still be extracted (`llm.py` lines
443-450). -/
def generic_gate_prompt : PyStr :=
  "Evaluate if this event matches the subscription criteria. Return \x7b\"decision\": true or false\x7d".data

/-- `LLMPatternService._parse_llm_response` (`llm.py` lines 430-457) with
`json.loads` passed in: with the gate enabled, try JSON (a dict carrying
`pattern`), else extract a bare pattern with a stock gate prompt; with
the gate disabled, extract a bare pattern. -/
def sub_parse_llm_response (loads : PyStr → Option PyJson) (response : PyStr)
    (gate_enabled : Bool) : Option PyJson :=
  if gate_enabled then
    match loads (pyStrStrip response) with
    | some (.obj fields) =>
      if hasKey fields "pattern".data then some (.obj fields)
      else
        match extract_pattern_from_response response with
        | some p => some (.obj (.cons "pattern".data (.str p)
            (.cons "gate_prompt".data (.str generic_gate_prompt) .nil)))
        | Option.none => Option.none
    | _ =>
      match extract_pattern_from_response response with
      | some p => some (.obj (.cons "pattern".data (.str p)
          (.cons "gate_prompt".data (.str generic_gate_prompt) .nil)))
      | Option.none => Option.none
  else
    match extract_pattern_from_response response with
    | some p => some (.obj (.cons "pattern".data (.str p) .nil))
    | Option.none => Option.none

/-- The fallback result assembled when the LLM is unavailable, errors, or
yields nothing usable (`llm.py` lines 137-142, 187-197, 201-212). -/
def fallbackConvResult (description : PyStr) (gate_enabled : Bool) : PyJson :=
  if gate_enabled then
    .obj (.cons "pattern".data (.str (fallback_pattern_conversion description))
      (.cons "gate_prompt".data (.str (fallback_gate_prompt description)) .nil))
  else
    .obj (.cons "pattern".data
      (.str (fallback_pattern_conversion description)) .nil)

/-- The distinguished error of `llm.py`: `NoSuitableSchemaError`. -/
inductive ConvError where
  | noSuitableSchema
  deriving DecidableEq

/-- `result and result.get("pattern")`: the parsed dict and its pattern
entry are both truthy. -/
def resultHasTruthyPattern (r : PyJson) : Bool :=
  pyTruthy r && pyTruthy (match r with
    | .obj fields => (getKey fields "pattern".data).getD .none
    | _ => .none)

/-- `LLMPatternService.convert_to_pattern_and_gate` (`llm.py` lines
121-212), with the LLM interaction as input: unavailable service falls
back; a raised call is caught and falls back; a marker response raises
`NoSuitableSchemaError` (re-raised past the generic handler); otherwise
the response is parsed, falling back when no usable pattern emerges. -/
def convert_to_pattern_and_gate (available : Bool)
    (llmResponse : Except PyStr PyStr) (loads : PyStr → Option PyJson)
    (description : PyStr) (gate_enabled : Bool) : Except ConvError PyJson :=
  if !available then .ok (fallbackConvResult description gate_enabled)
  else
    match llmResponse with
    | .error _ => .ok (fallbackConvResult description gate_enabled)
    | .ok text =>
      let response_text := pyStrStrip text
      if is_no_schema_response response_text then .error .noSuitableSchema
      else
        match sub_parse_llm_response loads response_text gate_enabled with
        | some result =>
          if resultHasTruthyPattern result then .ok result
          else .ok (fallbackConvResult description gate_enabled)
        | Option.none => .ok (fallbackConvResult description gate_enabled)

/-- `LLMPatternService.convert_to_pattern` (`llm.py` lines 214-229): the
gate-disabled conversion, returning the result's pattern entry. -/
def convert_to_pattern (available : Bool) (llmResponse : Except PyStr PyStr)
    (loads : PyStr → Option PyJson) (description : PyStr) :
    Except ConvError PyStr :=
  match convert_to_pattern_and_gate available llmResponse loads description
      false with
  | .error e => .error e
  | .ok result =>
    .ok (match result with
      | .obj fields =>
        match getKey fields "pattern".data with
        | some (.str p) => p
        | _ => []
      | _ => [])

/-- A stored subscription row, as created by
`db_service.create_subscription` from the route. -/
structure SubscriptionRow where
  subscriber_id : PyStr
  description : PyStr
  pattern : PyStr
  deriving DecidableEq

/-- `create_subscription` of `src/langhook/subscriptions/routes.py`
lines 30-110, over the store state: a `NoSuitableSchemaError` from the
compiler becomes HTTP 422 before any database write; a successful
conversion inserts the row and returns 201.  (A database failure would
return 500, also without a committed row; the success path is the one
modelled.) -/
def create_subscription_route (conv : Except ConvError PyStr)
    (description : PyStr) (store : List SubscriptionRow) :
    Nat × List SubscriptionRow :=
  match conv with
  | .error .noSuitableSchema => (422, store)
  | .ok pattern =>
    (201, store ++ [⟨"default".data, description, pattern⟩])

/-- The LLM's no-suitable-schema marker response. -/
def markerResponse : PyStr := "ERROR: No suitable schema found".data

/-- C4: on the marker response the compiler raises the distinguished
no-suitable-schema error, and the subscription-create route answers 422
with the store unchanged — no subscription row is created, for every
description and every store state. -/
theorem C4_no_suitable_schema_422 :
    ∀ (loads : PyStr → Option PyJson) (description : PyStr)
      (store : List SubscriptionRow),
      convert_to_pattern true (.ok markerResponse) loads description =
        .error .noSuitableSchema ∧
      create_subscription_route
        (convert_to_pattern true (.ok markerResponse) loads description)
        description store = (422, store) := by
  intro loads description store
  have hm : is_no_schema_response (pyStrStrip markerResponse) = true := by
    decide
  have hconv : convert_to_pattern true (.ok markerResponse) loads
      description = .error .noSuitableSchema := by
    simp [convert_to_pattern, convert_to_pattern_and_gate, hm]
  exact ⟨hconv, by rw [hconv]; rfl⟩

/-!  The ingest endpoint `ingest_webhook` — identical size/parse/signature
logic in `src/langhook/app.py` lines 169-281 and
`src/opensense/ingest/app.py` lines 90-203.  `json.loads` over the body
bytes and HMAC verification are inputs; the messages published to the
stream (raw event or dead-letter record) are the second component of the
result, the HTTP status the first. -/

/-- A message published by the ingest endpoint. -/
inductive StreamMsg where
  | rawEvent (signature_valid : Option Bool) (payload : PyJson)
  | dlq
  deriving DecidableEq

/-- The endpoint's processing after the size check: parse the JSON body
(failure publishes a dead-letter record and answers 400), verify the
signature (explicit `False` answers 401), then publish the raw event and
answer 202. -/
def process_after_size (parsed : Option PyJson)
    (signature_valid : Option Bool) : Nat × List StreamMsg :=
  match parsed with
  | Option.none => (400, [.dlq])
  | some payload =>
    match signature_valid with
    | some false => (401, [])
    | sv => (202, [.rawEvent sv payload])

/-- `ingest_webhook`: reject a body strictly larger than
`max_body_bytes` with 413 before anything is published; otherwise
continue with parsing. -/
def ingest_webhook (max_body_bytes : Nat) (body : List Nat)
    (loads : List Nat → Option PyJson) (signature_valid : Option Bool) :
    Nat × List StreamMsg :=
  if body.length > max_body_bytes then (413, [])
  else process_after_size (loads body) signature_valid

/-- C6: a body of exactly `max_body_bytes` is not size-rejected — the
request proceeds to JSON parsing and never yields 413 — while a body at
least one byte over is answered 413 with nothing published. -/
theorem C6_body_size_boundary :
    (∀ (max_body_bytes : Nat) (body : List Nat)
        (loads : List Nat → Option PyJson) (sv : Option Bool),
      body.length = max_body_bytes →
      ingest_webhook max_body_bytes body loads sv =
        process_after_size (loads body) sv ∧
      (ingest_webhook max_body_bytes body loads sv).1 ≠ 413) ∧
    (∀ (max_body_bytes : Nat) (body : List Nat)
        (loads : List Nat → Option PyJson) (sv : Option Bool),
      max_body_bytes + 1 ≤ body.length →
      ingest_webhook max_body_bytes body loads sv = (413, [])) := by
  constructor
  · intro m body loads sv hlen
    have hle : ¬ (body.length > m) := by omega
    have heq : ingest_webhook m body loads sv =
        process_after_size (loads body) sv := by
      simp [ingest_webhook, if_neg hle]
    refine ⟨heq, ?_⟩
    rw [heq]
    cases hp : loads body with
    | none => simp [process_after_size]
    | some payload =>
      cases sv with
      | none => simp [process_after_size]
      | some b => cases b <;> simp [process_after_size]
  · intro m body loads sv hlen
    have hgt : body.length > m := by omega
    simp [ingest_webhook, if_pos hgt]

theorem C6_body_size_boundary_witness :
    ([7, 7] : List Nat).length = 2 ∧
    ingest_webhook 2 [7, 7] (fun _ => some (.obj .nil)) Option.none =
      process_after_size (some (.obj .nil)) Option.none ∧
    (ingest_webhook 2 [7, 7] (fun _ => some (.obj .nil)) Option.none).1 ≠
      413 ∧
    2 + 1 ≤ ([7, 7, 7] : List Nat).length ∧
    ingest_webhook 2 [7, 7, 7] (fun _ => some (.obj .nil)) Option.none =
      (413, []) :=
  ⟨rfl,
   (C6_body_size_boundary.1 2 [7, 7] (fun _ => some (.obj .nil))
     Option.none rfl).1,
   (C6_body_size_boundary.1 2 [7, 7] (fun _ => some (.obj .nil))
     Option.none rfl).2,
   by decide,
   C6_body_size_boundary.2 2 [7, 7, 7] (fun _ => some (.obj .nil))
     Option.none (by decide)⟩

end LangHook
